import Mathlib

/-!
# Verification of the RAHL-XMD pairing core

A shallow embedding of `src/rahl_xmd/core/paring_system.py` and
`src/rahl_xmd/utils/validations.py`.

Modelling conventions, kept uniform across the file:

* Python `datetime` values are modelled as `Int` seconds; every operation that
  calls `datetime.now()` takes an explicit `now : Int` argument.
* Python `dict`s are modelled as insertion-ordered association lists
  (`List (String × _)`); `insertA` is dict assignment (update in place or
  append), `eraseA` is `del`, `lookupA` is `get`.
* Python floats are modelled as `ℚ` (the score arithmetic uses only decimal
  literals, so the claimed order relations are exact).
* Python's salted, process-stable `hash` builtin is abstracted as an explicit
  function parameter `hashFn : String → Int`; `%` is Python's nonnegative
  modulus, i.e. `Int.emod`.
* `uuid`-generated identifiers (random pairing codes, `uuid4` pairing ids)
  are abstracted as explicit arguments of the operation; the generator's
  uniqueness (the collision-rejection loop for codes, uuid uniqueness for
  pairing ids) becomes a freshness side condition on the transition relation.
* Uncaught Python exceptions (`KeyError` on a missing dict key) are modelled
  by the `Except.error` branch of a result, carrying the state exactly as
  mutated so far.
* Opaque metadata blobs are modelled by their JSON serialization, a `String`
  (only its length matters to the code, via `validate_metadata`).
* File persistence (`_save_data`) always rewrites the full snapshot and
  returns nothing; it is the identity on the in-memory state and is elided.
-/

/-- Status of a pairing relationship (`PairingStatus` in `paring_system.py`). -/
inductive PairingStatus where
  | pending
  | active
  | expired
  | revoked
  | archived
deriving DecidableEq, Repr

/-- Visual themes for pairing codes (`CodeTheme` in `paring_system.py`). -/
inductive CodeTheme where
  | default
  | neon
  | cyberpunk
  | matrix
  | aurora
  | hologram
deriving DecidableEq, Repr

/-- User profile data structure (`UserProfile`).  `preferences` is the opaque
string-keyed mapping; timestamps are seconds. -/
structure UserProfile where
  user_id : String
  username : String
  email : Option String
  avatar_url : Option String
  preferences : List (String × String)
  interests : List String
  created_at : Int
  last_active : Int
  is_verified : Bool
deriving DecidableEq, Repr

/-- Pairing code data structure (`PairingCode`).  `metadata` is the opaque
blob, modelled by its serialization.  `expires_at` is always set: the
`__post_init__` default (`created_at + 24h`) is applied by the constructing
operation. -/
structure PairingCode where
  code : String
  owner_id : String
  created_at : Int
  expires_at : Int
  max_uses : Int
  uses_count : Int
  theme : CodeTheme
  is_animated : Bool
  is_active : Bool
  metadata : String
deriving DecidableEq, Repr

/-- `PairingCode.is_valid`: active, under the usage limit, and not yet past
expiry (`now < expires_at`, strict, as in the source). -/
def PairingCode.is_valid (pc : PairingCode) (now : Int) : Bool :=
  pc.is_active && decide (pc.uses_count < pc.max_uses) && decide (now < pc.expires_at)

/-- `PairingCode.use`: increment `uses_count` once if the code is valid;
returns whether the use was recorded, plus the updated code. -/
def PairingCode.use (pc : PairingCode) (now : Int) : Bool × PairingCode :=
  if pc.is_valid now then (true, { pc with uses_count := pc.uses_count + 1 })
  else (false, pc)

/-- Pairing relationship data structure (`Pairing`). -/
structure Pairing where
  pairing_id : String
  user1_id : String
  user2_id : String
  created_at : Int
  status : PairingStatus
  compatibility_score : ℚ
  shared_interests : List String
  last_interaction : Int
  metadata : String
deriving DecidableEq, Repr

/-- `Pairing.is_active`: the status is `active`. -/
def Pairing.is_active (p : Pairing) : Bool :=
  p.status == PairingStatus.active

/-- Association-list lookup: Python `dict` access / `.get`. -/
def lookupA {α : Type} : List (String × α) → String → Option α
  | [], _ => none
  | (k, v) :: rest, key => if k = key then some v else lookupA rest key

/-- Association-list assignment: Python `d[k] = v` (overwrite in place, or
append a new key at the end, preserving insertion order). -/
def insertA {α : Type} : List (String × α) → String → α → List (String × α)
  | [], key, v => [(key, v)]
  | (k, w) :: rest, key, v =>
      if k = key then (key, v) :: rest else (k, w) :: insertA rest key v

/-- Association-list deletion: Python `del d[k]` (removes the entry). -/
def eraseA {α : Type} : List (String × α) → String → List (String × α)
  | [], _ => []
  | (k, w) :: rest, key => if k = key then rest else (k, w) :: eraseA rest key

/-- The in-memory state of `PairingSystem`: the three entity maps and the
derived user → pairing-ids index. -/
structure PairingSystem where
  users : List (String × UserProfile)
  codes : List (String × PairingCode)
  pairings : List (String × Pairing)
  user_pairings : List (String × List String)
deriving DecidableEq, Repr

/-- A freshly constructed store with no persisted data to load. -/
def emptySystem : PairingSystem := ⟨[], [], [], []⟩

section AListLemmas

variable {α : Type}

theorem lookupA_insertA (m : List (String × α)) (k : String) (v : α) (k' : String) :
    lookupA (insertA m k v) k' = if k = k' then some v else lookupA m k' := by
  induction m with
  | nil => simp [insertA, lookupA]
  | cons hd tl ih =>
      obtain ⟨k₀, v₀⟩ := hd
      by_cases h₀ : k₀ = k
      · subst h₀
        by_cases h₁ : k₀ = k'
        · subst h₁; simp [insertA, lookupA]
        · simp [insertA, lookupA, h₁]
      · by_cases h₁ : k₀ = k'
        · subst h₁
          simp [insertA, lookupA, h₀, Ne.symm h₀]
        · simp [insertA, lookupA, h₀, h₁, ih]

theorem lookupA_insertA_self (m : List (String × α)) (k : String) (v : α) :
    lookupA (insertA m k v) k = some v := by
  simp [lookupA_insertA]

theorem lookupA_insertA_ne (m : List (String × α)) (k : String) (v : α) (k' : String)
    (h : k ≠ k') : lookupA (insertA m k v) k' = lookupA m k' := by
  simp [lookupA_insertA, h]

theorem lookupA_eraseA_ne (m : List (String × α)) (k k' : String) (h : k ≠ k') :
    lookupA (eraseA m k) k' = lookupA m k' := by
  induction m with
  | nil => simp [eraseA]
  | cons hd tl ih =>
      obtain ⟨k₀, v₀⟩ := hd
      by_cases h₀ : k₀ = k
      · subst h₀; simp [eraseA, lookupA, h]
      · simp [eraseA, lookupA, h₀, ih]

theorem lookupA_eq_none_iff (m : List (String × α)) (k : String) :
    lookupA m k = none ↔ k ∉ m.map Prod.fst := by
  induction m with
  | nil => simp [lookupA]
  | cons hd tl ih =>
      obtain ⟨k₀, v₀⟩ := hd
      by_cases h₀ : k₀ = k
      · subst h₀; simp [lookupA]
      · simp [lookupA, h₀, ih, Ne.symm h₀]

theorem mem_keys_insertA (m : List (String × α)) (k : String) (v : α) (k' : String) :
    k' ∈ (insertA m k v).map Prod.fst ↔ k' ∈ m.map Prod.fst ∨ k' = k := by
  induction m with
  | nil => simp [insertA]
  | cons hd tl ih =>
      obtain ⟨k₀, v₀⟩ := hd
      by_cases h₀ : k₀ = k
      · subst h₀
        simp [insertA]
        tauto
      · simp [insertA, h₀, ih]
        tauto

theorem mem_keys_eraseA (m : List (String × α)) (k : String) (k' : String)
    (h : k' ∈ (eraseA m k).map Prod.fst) : k' ∈ m.map Prod.fst := by
  induction m with
  | nil => simp [eraseA] at h
  | cons hd tl ih =>
      obtain ⟨k₀, v₀⟩ := hd
      by_cases h₀ : k₀ = k
      · subst h₀
        simp [eraseA] at h
        simp [h]
      · simp [eraseA, h₀] at h
        rcases h with h | h
        · simp [h]
        · rcases h with ⟨x, hx⟩
          have := ih (List.mem_map.2 ⟨(k', x), hx, rfl⟩)
          simp at this ⊢
          exact Or.inr this

theorem lookupA_eraseA_self (m : List (String × α)) (k : String)
    (h : (m.map Prod.fst).Nodup) : lookupA (eraseA m k) k = none := by
  induction m with
  | nil => simp [eraseA, lookupA]
  | cons hd tl ih =>
      obtain ⟨k₀, v₀⟩ := hd
      simp only [List.map_cons, List.nodup_cons] at h
      by_cases h₀ : k₀ = k
      · subst h₀
        simpa [eraseA] using (lookupA_eq_none_iff tl k₀).2 h.1
      · simp [eraseA, h₀, lookupA, ih h.2]

theorem insertA_nodup_keys (m : List (String × α)) (k : String) (v : α)
    (h : (m.map Prod.fst).Nodup) : ((insertA m k v).map Prod.fst).Nodup := by
  induction m with
  | nil => simp [insertA]
  | cons hd tl ih =>
      obtain ⟨k₀, v₀⟩ := hd
      simp only [List.map_cons, List.nodup_cons] at h
      by_cases h₀ : k₀ = k
      · subst h₀
        simpa [insertA] using h
      · have hk : k₀ ∉ (insertA tl k v).map Prod.fst := by
          rw [mem_keys_insertA]
          rintro (hc | hc)
          · exact h.1 hc
          · exact h₀ hc
        simp only [insertA, if_neg h₀, List.map_cons, List.nodup_cons]
        exact ⟨hk, ih h.2⟩

theorem eraseA_nodup_keys (m : List (String × α)) (k : String)
    (h : (m.map Prod.fst).Nodup) : ((eraseA m k).map Prod.fst).Nodup := by
  induction m with
  | nil => simp [eraseA]
  | cons hd tl ih =>
      obtain ⟨k₀, v₀⟩ := hd
      simp only [List.map_cons, List.nodup_cons] at h
      by_cases h₀ : k₀ = k
      · subst h₀
        simpa [eraseA] using h.2
      · have hk : k₀ ∉ (eraseA tl k).map Prod.fst :=
          fun hc => h.1 (mem_keys_eraseA tl k k₀ hc)
        simp only [eraseA, if_neg h₀, List.map_cons, List.nodup_cons]
        exact ⟨hk, ih h.2⟩

theorem insertA_append_of_fresh (m : List (String × α)) (k : String) (v : α)
    (h : lookupA m k = none) : insertA m k v = m ++ [(k, v)] := by
  induction m with
  | nil => simp [insertA]
  | cons hd tl ih =>
      obtain ⟨k₀, v₀⟩ := hd
      by_cases h₀ : k₀ = k
      · subst h₀; simp [lookupA] at h
      · simp [lookupA, h₀] at h
        simp [insertA, h₀, ih h]

theorem lookupA_append_left (m₁ m₂ : List (String × α)) (k : String)
    (h : (lookupA m₁ k).isSome) :
    lookupA (m₁ ++ m₂) k = lookupA m₁ k := by
  induction m₁ with
  | nil => simp [lookupA] at h
  | cons hd tl ih =>
      obtain ⟨k₀, v₀⟩ := hd
      by_cases h₀ : k₀ = k
      · simp [lookupA, h₀]
      · simp [lookupA, h₀] at h ⊢
        exact ih h

theorem lookupA_append_right (m₁ m₂ : List (String × α)) (k : String)
    (h : lookupA m₁ k = none) :
    lookupA (m₁ ++ m₂) k = lookupA m₂ k := by
  induction m₁ with
  | nil => simp [lookupA]
  | cons hd tl ih =>
      obtain ⟨k₀, v₀⟩ := hd
      by_cases h₀ : k₀ = k
      · simp [lookupA, h₀] at h
      · simp [lookupA, h₀] at h ⊢
        exact ih h

end AListLemmas

/-!
## Validation (`utils/validations.py`)

Pure predicates. `validate_user_data` raises `ValueError` on its first failing
check (modelled as `Except.error` with the source's message); the boolean
validators return `Bool`.
-/

/-- The character class `[a-zA-Z0-9_-]` used for `user_id`. -/
def valid_user_id_char (c : Char) : Bool :=
  c.isAlphanum || c == '_' || c == '-'

/-- The character class `[a-zA-Z0-9._%+-]` of the email local part. -/
def email_local_char (c : Char) : Bool :=
  c.isAlphanum || c == '.' || c == '_' || c == '%' || c == '+' || c == '-'

/-- The character class `[a-zA-Z0-9.-]` of the email domain part. -/
def email_domain_char (c : Char) : Bool :=
  c.isAlphanum || c == '.' || c == '-'

/-- `validate_email`: the `parseaddr` pre-check ('@' present) followed by the
regex `^[a-zA-Z0-9._%+-]+@[a-zA-Z0-9.-]+\.[a-zA-Z]{2,}$`.  The regex admits a
match exactly when the string splits at its single `@` into a nonempty local
part and a domain that ends in a dot followed by at least two letters with at
least one domain character before that dot (the all-letter TLD can only sit
after the last dot, so matching at the last dot is complete). -/
def validate_email (email : String) : Bool :=
  match email.splitOn "@" with
  | [loc, dom] =>
      decide (1 ≤ loc.toList.length) && loc.toList.all email_local_char &&
      dom.toList.all email_domain_char &&
      (match (dom.splitOn ".").getLast? with
       | some tld =>
           decide (2 ≤ (dom.splitOn ".").length) &&
           decide (2 ≤ tld.toList.length) && tld.toList.all (fun c => c.isAlpha) &&
           decide (tld.toList.length + 2 ≤ dom.toList.length)
       | none => false)
  | _ => false

/-- The optional registration attributes passed as `**kwargs` to
`register_user` (`email`, `avatar_url`, `preferences`, `interests`,
`is_verified`). -/
structure RegisterExtra where
  email : Option String
  avatar_url : Option String
  preferences : List (String × String)
  interests : List String
  is_verified : Bool
deriving DecidableEq, Repr

/-- The empty `**kwargs`: every optional registration attribute defaulted. -/
def noExtra : RegisterExtra := ⟨none, none, [], [], false⟩

/-- `validate_user_data`: the checks of `validations.py`, in source order.
The required-field, `isinstance` and flat-mapping checks hold by typing in
this model; the `email and not validate_email(email)` guard skips the empty
string exactly as Python's truthiness does. -/
def validate_user_data (user_id username : String) (extra : RegisterExtra) :
    Except String Unit :=
  if user_id.toList.length < 3 then .error "user_id must be at least 3 characters"
  else if user_id.toList.length > 50 then .error "user_id must not exceed 50 characters"
  else if ¬ user_id.toList.all valid_user_id_char then
    .error "user_id can only contain letters, numbers, underscores, and hyphens"
  else if username.toList.length < 2 then .error "username must be at least 2 characters"
  else if username.toList.length > 30 then .error "username must not exceed 30 characters"
  else if (match extra.email with
           | some e => !e.toList.isEmpty && !validate_email e
           | none => false) then .error "Invalid email address"
  else if extra.interests.any (fun i => 50 < i.toList.length) then
    .error "Interest too long (max 50 characters)"
  else .ok ()

/-- `validate_pairing_code`: length 6–20 and the pattern
`^[A-Z0-9][A-Z0-9-]*[A-Z0-9]$`. -/
def validate_pairing_code (code : String) : Bool :=
  let cs := code.toList
  decide (6 ≤ cs.length) && decide (cs.length ≤ 20) &&
  (match cs with
   | [] => false
   | c :: rest =>
       (c.isUpper || c.isDigit) &&
       (match rest.getLast? with
        | none => false
        | some cLast =>
            (cLast.isUpper || cLast.isDigit) &&
            rest.dropLast.all (fun d => d.isUpper || d.isDigit || d == '-')))

/-- `validate_theme`: the lowercase theme name is one of the six known ones. -/
def validate_theme (theme : String) : Bool :=
  theme = "default" || theme = "neon" || theme = "cyberpunk" ||
  theme = "matrix" || theme = "aurora" || theme = "hologram"

/-- `validate_duration`: an integer number of hours in `1..720`. -/
def validate_duration (duration_hours : Int) : Bool :=
  decide (1 ≤ duration_hours) && decide (duration_hours ≤ 720)

/-- `validate_max_uses`: an integer in `1..1000`. -/
def validate_max_uses (max_uses : Int) : Bool :=
  decide (1 ≤ max_uses) && decide (max_uses ≤ 1000)

/-- `validate_metadata`: the JSON serialization is at most 10000 bytes
(metadata is modelled by that serialization). -/
def validate_metadata (metadata : String) : Bool :=
  decide (metadata.toList.length ≤ 10000)

/-!
## The `PairingSystem` operations (`core/paring_system.py`)
-/

/-- `register_user`: duplicate check, then validation, then profile creation,
an empty index entry, and save.  The source interpolates the user id into its
`ValueError` message; the message text here is fixed. -/
def register_user (sys : PairingSystem) (user_id username : String)
    (extra : RegisterExtra) (now : Int) :
    Except String UserProfile × PairingSystem :=
  if (lookupA sys.users user_id).isSome then (.error "User already exists", sys)
  else
    match validate_user_data user_id username extra with
    | .error e => (.error e, sys)
    | .ok _ =>
        let user : UserProfile :=
          { user_id := user_id, username := username, email := extra.email,
            avatar_url := extra.avatar_url, preferences := extra.preferences,
            interests := extra.interests, created_at := now, last_active := now,
            is_verified := extra.is_verified }
        (.ok user,
          { sys with users := insertA sys.users user_id user,
                     user_pairings := insertA sys.user_pairings user_id [] })

/-- `get_user`. -/
def get_user (sys : PairingSystem) (user_id : String) : Option UserProfile :=
  lookupA sys.users user_id

/-- The `**kwargs` of `update_user`: `some` marks a field present in the call
(the allow-list of `update_user`). -/
structure UpdateFields where
  username : Option String
  email : Option (Option String)
  avatar_url : Option (Option String)
  preferences : Option (List (String × String))
  interests : Option (List String)
  is_verified : Option Bool
deriving Repr

/-- `update_user`: overwrite the allow-listed fields that are present and bump
`last_active`; `None` for an unknown user. -/
def update_user (sys : PairingSystem) (user_id : String) (upd : UpdateFields)
    (now : Int) : Option UserProfile × PairingSystem :=
  match lookupA sys.users user_id with
  | none => (none, sys)
  | some user =>
      let user' : UserProfile :=
        { user with
          username := upd.username.getD user.username,
          email := upd.email.getD user.email,
          avatar_url := upd.avatar_url.getD user.avatar_url,
          preferences := upd.preferences.getD user.preferences,
          interests := upd.interests.getD user.interests,
          is_verified := upd.is_verified.getD user.is_verified,
          last_active := now }
      (some user', { sys with users := insertA sys.users user_id user' })

/-- `generate_pairing_code`: unknown owner is a `ValueError`; otherwise a code
record is stored under the freshly sampled random digit string.  The
generate-and-reject-collisions loop is abstracted to the explicit `code`
argument (the transition relation adds the loop's postcondition, freshness).
No duration / max-uses / metadata validator is invoked. -/
def generate_pairing_code (sys : PairingSystem) (owner_id : String)
    (max_uses : Int) (expires_hours : Int) (theme : CodeTheme)
    (is_animated : Bool) (metadata : String) (now : Int) (code : String) :
    Except String PairingCode × PairingSystem :=
  if (lookupA sys.users owner_id).isSome then
    let pairing_code : PairingCode :=
      { code := code, owner_id := owner_id, created_at := now,
        expires_at := now + expires_hours * 3600, max_uses := max_uses,
        uses_count := 0, theme := theme, is_animated := is_animated,
        is_active := true, metadata := metadata }
    (.ok pairing_code, { sys with codes := insertA sys.codes code pairing_code })
  else (.error "User not found", sys)

/-- `get_pairing_code`. -/
def get_pairing_code (sys : PairingSystem) (code : String) : Option PairingCode :=
  lookupA sys.codes code

/-- The scan of `_find_existing_pairing`: walk a user's pairing-id list and
return the first id whose pairing involves `target` and is active.  A dangling
id raises `KeyError` (`self.pairings[pairing_id]`). -/
def scan_for_active (pairings : List (String × Pairing)) (target : String) :
    List String → Except String (Option String)
  | [] => .ok none
  | pid :: rest =>
      match lookupA pairings pid with
      | none => .error "KeyError"
      | some p =>
          if (p.user1_id = target ∨ p.user2_id = target) ∧ p.status = PairingStatus.active
          then .ok (some pid)
          else scan_for_active pairings target rest

/-- `_find_existing_pairing(user1_id, user2_id)`: scan `user1_id`'s index
entry (`.get(user1_id, [])`, so a missing entry scans nothing). -/
def find_existing_pairing (sys : PairingSystem) (user1_id user2_id : String) :
    Except String (Option String) :=
  scan_for_active sys.pairings user2_id ((lookupA sys.user_pairings user1_id).getD [])

/-- `_calculate_compatibility`: interest overlap (`|∩|/len(user1.interests) * 0.4`,
skipped when `user1.interests` is empty), the constant preference baseline
`0.15`, recency affinity over 24h, and the stable-hash variety term
(`hash(uid1 ++ uid2) % 100 / 1000`), clamped to at most `1.0`. -/
def calculate_compatibility (hashFn : String → Int) (user1 user2 : UserProfile) : ℚ :=
  let common := user1.interests.dedup.filter (fun i => user2.interests.contains i)
  let score : ℚ :=
    if user1.interests.isEmpty then 0
    else (common.length : ℚ) / (user1.interests.length : ℚ) * 0.4
  let score := score + 0.15
  let activity_diff : ℚ := ((user1.last_active - user2.last_active).natAbs : ℚ)
  let score := score + max 0 (1 - activity_diff / 86400) * 0.2
  let score := score + ((hashFn (user1.user_id ++ user2.user_id)).emod 100 : ℚ) / 1000
  min score 1

/-- `_find_shared_interests`: `list(set(u1.interests) & set(u2.interests))`.
Python's set iteration order is abstracted to first-list order (the content,
as a set, is the literal intersection). -/
def find_shared_interests (user1 user2 : UserProfile) : List String :=
  user1.interests.dedup.filter (fun i => user2.interests.contains i)

/-- `use_pairing_code`: the redemption sequence, in source order — lookup,
validity, self-pair, existing-active-pairing scan, `use()`, compatibility,
pairing creation, index append, save.  The returned pair is the source's
`(success, message_or_pairing_id)` tuple; `Except.error` is an uncaught
`KeyError`, with the state as mutated up to that point. -/
def use_pairing_code (hashFn : String → Int) (sys : PairingSystem)
    (code user_id : String) (now : Int) (pairing_id : String) :
    Except String (Bool × String) × PairingSystem :=
  match lookupA sys.codes code with
  | none => (.ok (false, "Invalid pairing code"), sys)
  | some pc =>
      if pc.is_valid now then
        if pc.owner_id = user_id then (.ok (false, "Cannot pair with yourself"), sys)
        else
          match find_existing_pairing sys pc.owner_id user_id with
          | .error e => (.error e, sys)
          | .ok (some _) => (.ok (false, "Users are already paired"), sys)
          | .ok none =>
              let used := pc.use now
              if used.1 then
                let sys1 := { sys with codes := insertA sys.codes code used.2 }
                match lookupA sys1.users pc.owner_id, lookupA sys1.users user_id with
                | some user1, some user2 =>
                    let score := calculate_compatibility hashFn user1 user2
                    let shared := find_shared_interests user1 user2
                    let pairing : Pairing :=
                      { pairing_id := pairing_id, user1_id := pc.owner_id,
                        user2_id := user_id, created_at := now,
                        status := PairingStatus.active,
                        compatibility_score := score, shared_interests := shared,
                        last_interaction := now, metadata := "" }
                    let sys2 := { sys1 with
                                  pairings := insertA sys1.pairings pairing_id pairing }
                    match lookupA sys2.user_pairings pc.owner_id with
                    | none => (.error "KeyError", sys2)
                    | some l1 =>
                        let sys3 := { sys2 with
                                      user_pairings := insertA sys2.user_pairings
                                        pc.owner_id (l1 ++ [pairing_id]) }
                        match lookupA sys3.user_pairings user_id with
                        | none => (.error "KeyError", sys3)
                        | some l2 =>
                            let sys4 := { sys3 with
                                          user_pairings := insertA sys3.user_pairings
                                            user_id (l2 ++ [pairing_id]) }
                            (.ok (true, pairing_id), sys4)
                | _, _ => (.error "KeyError", sys1)
              else (.ok (false, "Pairing code usage limit reached"), sys)
      else (.ok (false, "Pairing code has expired or been used"), sys)

/-- Stable descending insertion by `last_interaction` (Python's `sorted` is a
stable sort; `reverse=True` keeps the original relative order of ties). -/
def insert_by_interaction_desc (p : Pairing) : List Pairing → List Pairing
  | [] => [p]
  | q :: rest =>
      if q.last_interaction < p.last_interaction then p :: q :: rest
      else q :: insert_by_interaction_desc p rest

/-- Sort pairings by `last_interaction` descending, stably. -/
def sort_by_interaction_desc (l : List Pairing) : List Pairing :=
  l.foldl (fun acc p => insert_by_interaction_desc p acc) []

/-- `get_user_pairings`: empty for an unindexed user; otherwise the indexed
pairings that still exist, optionally filtered by status, sorted by
`last_interaction` descending. -/
def get_user_pairings (sys : PairingSystem) (user_id : String)
    (status : Option PairingStatus) : List Pairing :=
  match lookupA sys.user_pairings user_id with
  | none => []
  | some pids =>
      let pairings := pids.filterMap (fun pid =>
        match lookupA sys.pairings pid with
        | none => none
        | some p =>
            match status with
            | none => some p
            | some st => if p.status = st then some p else none)
      sort_by_interaction_desc pairings

/-- `get_pairing`. -/
def get_pairing (sys : PairingSystem) (pairing_id : String) : Option Pairing :=
  lookupA sys.pairings pairing_id

/-- `update_pairing_status`: set the status and bump `last_interaction`;
unknown id returns `None` without mutation. -/
def update_pairing_status (sys : PairingSystem) (pairing_id : String)
    (status : PairingStatus) (now : Int) : Option Pairing × PairingSystem :=
  match lookupA sys.pairings pairing_id with
  | none => (none, sys)
  | some p =>
      let p' := { p with status := status, last_interaction := now }
      (some p', { sys with pairings := insertA sys.pairings pairing_id p' })

/-- Remove one pairing id from a user's index entry, if that entry exists
(the `if user_id in self.user_pairings` guard of `delete_pairing`). -/
def prune_index (idx : List (String × List String)) (user_id pairing_id : String) :
    List (String × List String) :=
  match lookupA idx user_id with
  | none => idx
  | some l => insertA idx user_id (l.filter (fun pid => pid ≠ pairing_id))

/-- `delete_pairing`: prune both members' index entries and remove the
pairing; unknown id returns `False`. -/
def delete_pairing (sys : PairingSystem) (pairing_id : String) :
    Bool × PairingSystem :=
  match lookupA sys.pairings pairing_id with
  | none => (false, sys)
  | some p =>
      let idx1 := prune_index sys.user_pairings p.user1_id pairing_id
      let idx2 := prune_index idx1 p.user2_id pairing_id
      (true, { sys with pairings := eraseA sys.pairings pairing_id,
                        user_pairings := idx2 })

/-- `_find_most_common_interest`: count, over the user's pairings, each of the
user's interests shared with the counterpart; return a maximal one
(first-encountered wins ties, as Python's `max` over insertion-ordered dict
items does), or `None` when no count was recorded. -/
def find_most_common_interest (sys : PairingSystem) (user_id : String) :
    Option String :=
  match lookupA sys.users user_id with
  | none => none
  | some user =>
      let pairings := get_user_pairings sys user_id none
      let counts : List (String × Nat) := pairings.foldl
        (fun counts p =>
          let other_id := if p.user1_id = user_id then p.user2_id else p.user1_id
          match lookupA sys.users other_id with
          | none => counts
          | some other =>
              user.interests.foldl
                (fun counts interest =>
                  if other.interests.contains interest then
                    insertA counts interest ((lookupA counts interest).getD 0 + 1)
                  else counts)
                counts)
        []
      match counts.foldl
        (fun best e =>
          match best with
          | none => some e
          | some b => if e.2 > b.2 then some e else best)
        none with
      | none => none
      | some best => some best.1

/-- The aggregate returned by `get_user_stats` (a dict in the source). -/
structure UserStats where
  user_id : String
  total_pairings : Nat
  active_pairings : Nat
  codes_generated : Nat
  active_codes : Nat
  compatibility_avg : ℚ
  most_common_interest : Option String
deriving DecidableEq, Repr

/-- `get_user_stats`: the empty dict (`none`) for an unknown user; otherwise
the aggregate over the user's pairings and codes. -/
def get_user_stats (sys : PairingSystem) (user_id : String) (now : Int) :
    Option UserStats :=
  if (lookupA sys.users user_id).isSome then
    let pairings := get_user_pairings sys user_id none
    let active_pairings := pairings.filter (fun p => p.is_active)
    let codes := (sys.codes.map Prod.snd).filter (fun c => c.owner_id = user_id)
    some
      { user_id := user_id,
        total_pairings := pairings.length,
        active_pairings := active_pairings.length,
        codes_generated := codes.length,
        active_codes := (codes.filter (fun c => c.is_valid now)).length,
        compatibility_avg :=
          if active_pairings.isEmpty then 0
          else (active_pairings.map (fun p => p.compatibility_score)).sum /
            (active_pairings.length : ℚ),
        most_common_interest := find_most_common_interest sys user_id }
  else none

/-- `cleanup_expired`: deactivate every code strictly past expiry
(`now > expires_at`) and archive every non-active pairing whose
`last_interaction` is more than 30 days old; return both counts.  Note the
sweep re-examines `expires_at`/`status` only — an already-deactivated or
already-archived entity is counted again. -/
def cleanup_expired (sys : PairingSystem) (now : Int) :
    (Nat × Nat) × PairingSystem :=
  let expired_codes := sys.codes.filter (fun e => decide (e.2.expires_at < now))
  let codes' := sys.codes.map (fun e =>
    if e.2.expires_at < now then (e.1, { e.2 with is_active := false }) else e)
  let thirty_days_ago := now - 30 * 86400
  let archived_pairings := sys.pairings.filter (fun e =>
    decide (e.2.status ≠ PairingStatus.active ∧ e.2.last_interaction < thirty_days_ago))
  let pairings' := sys.pairings.map (fun e =>
    if e.2.status ≠ PairingStatus.active ∧ e.2.last_interaction < thirty_days_ago
    then (e.1, { e.2 with status := PairingStatus.archived }) else e)
  ((expired_codes.length, archived_pairings.length),
    { sys with codes := codes', pairings := pairings' })

/-- The combined export document (`export_data`): a version tag, the export
timestamp, and the three aggregates verbatim. -/
structure ExportDoc where
  exported_at : Int
  version : String
  users : List (String × UserProfile)
  codes : List (String × PairingCode)
  pairings : List (String × Pairing)
deriving DecidableEq, Repr

/-- `export_data`: serialize the full snapshot.  `to_dict`/`from_dict` are
mutually inverse on every entity (ISO timestamps and enum strings round-trip),
so the document carries the entities themselves. -/
def export_data (sys : PairingSystem) (now : Int) : ExportDoc :=
  { exported_at := now, version := "1.0", users := sys.users,
    codes := sys.codes, pairings := sys.pairings }

/-- A serialized entity as seen by `import_data`: either it parses
(`from_dict` succeeds) or `from_dict` raises on it. -/
inductive RawEntity (α : Type) where
  | good : α → RawEntity α
  | bad : RawEntity α
deriving DecidableEq, Repr

/-- A parsed import document (`json.load` succeeded): three aggregates of
not-yet-deserialized entities.  A file whose top level is not valid JSON is
the `none` case of `import_data`'s argument. -/
structure ImportDoc where
  users : List (String × RawEntity UserProfile)
  codes : List (String × RawEntity PairingCode)
  pairings : List (String × RawEntity Pairing)
deriving Repr

/-- The users loop of `import_data`: store each parsed profile and an empty
index entry; a parse failure raises with the partially filled maps. -/
def import_users_loop :
    List (String × RawEntity UserProfile) →
    List (String × UserProfile) → List (String × List String) →
    Except (List (String × UserProfile) × List (String × List String))
      (List (String × UserProfile) × List (String × List String))
  | [], users, idx => .ok (users, idx)
  | (uid, .good u) :: rest, users, idx =>
      import_users_loop rest (insertA users uid u) (insertA idx uid [])
  | (_, .bad) :: _, users, idx => .error (users, idx)

/-- The codes loop of `import_data`. -/
def import_codes_loop :
    List (String × RawEntity PairingCode) → List (String × PairingCode) →
    Except (List (String × PairingCode)) (List (String × PairingCode))
  | [], codes => .ok codes
  | (c, .good pc) :: rest, codes => import_codes_loop rest (insertA codes c pc)
  | (_, .bad) :: _, codes => .error codes

/-- Append a pairing id under a user in the index, creating the entry if
missing (the index-update step of `import_data` and `_load_data`). -/
def append_index (idx : List (String × List String)) (user_id pairing_id : String) :
    List (String × List String) :=
  match lookupA idx user_id with
  | none => insertA idx user_id [pairing_id]
  | some l => insertA idx user_id (l ++ [pairing_id])

/-- The pairings loop of `import_data`: store each parsed pairing and append
its id under both members. -/
def import_pairings_loop :
    List (String × RawEntity Pairing) →
    List (String × Pairing) → List (String × List String) →
    Except (List (String × Pairing) × List (String × List String))
      (List (String × Pairing) × List (String × List String))
  | [], pairings, idx => .ok (pairings, idx)
  | (pid, .good p) :: rest, pairings, idx =>
      import_pairings_loop rest (insertA pairings pid p)
        (append_index (append_index idx p.user1_id pid) p.user2_id pid)
  | (_, .bad) :: _, pairings, idx => .error (pairings, idx)

/-- `import_data`: everything inside one `try`.  If `json.load` fails
(`none`), nothing has been touched.  Otherwise the four maps are cleared
first and then repopulated; a `from_dict` failure is caught and reported as
`False`, leaving the partially imported state in place. -/
def import_data (sys : PairingSystem) (doc : Option ImportDoc) :
    Bool × PairingSystem :=
  match doc with
  | none => (false, sys)
  | some d =>
      match import_users_loop d.users [] [] with
      | .error (us, idx) => (false, ⟨us, [], [], idx⟩)
      | .ok (us, idx) =>
          match import_codes_loop d.codes [] with
          | .error cs => (false, ⟨us, cs, [], idx⟩)
          | .ok cs =>
              match import_pairings_loop d.pairings [] idx with
              | .error (ps, idx') => (false, ⟨us, cs, ps, idx'⟩)
              | .ok (ps, idx') => (true, ⟨us, cs, ps, idx'⟩)

/-- An exported document, as `import_data` re-reads it: every entity
deserializes back to itself. -/
def docOfExport (d : ExportDoc) : ImportDoc :=
  { users := d.users.map (fun e => (e.1, RawEntity.good e.2)),
    codes := d.codes.map (fun e => (e.1, RawEntity.good e.2)),
    pairings := d.pairings.map (fun e => (e.1, RawEntity.good e.2)) }

/-- The index as `import_data` rebuilds it from the users and pairings maps:
an empty entry per user, then each pairing id appended under both members in
pairings-map order. -/
def rebuildIndex (users : List (String × UserProfile))
    (pairings : List (String × Pairing)) : List (String × List String) :=
  pairings.foldl
    (fun idx e => append_index (append_index idx e.2.user1_id e.1) e.2.user2_id e.1)
    (users.map (fun e => (e.1, ([] : List String))))

/-!
## Reachability

The public operation set, as a transition relation on the in-memory state.
`hashFn` is the process-wide `hash` builtin.  The `allowReactivate` flag
carves out the variant of the system in which `update_pairing_status` is
never used to set an (existing) pairing back to `active`; `Step hashFn true`
is the unrestricted operation set.  `import_data` replaces the whole store
from an external file and is treated separately (claims C5/C8), not as a
step of this relation; `export_data` does not mutate.  The freshness side
conditions on `generate` and `use` are the collision-rejection loop's
postcondition and `uuid4` uniqueness, respectively.
-/

inductive Step (hashFn : String → Int) (allowReactivate : Bool) :
    PairingSystem → PairingSystem → Prop where
  | register (sys : PairingSystem) (user_id username : String)
      (extra : RegisterExtra) (now : Int) :
      Step hashFn allowReactivate sys (register_user sys user_id username extra now).2
  | update_user_op (sys : PairingSystem) (user_id : String) (upd : UpdateFields)
      (now : Int) :
      Step hashFn allowReactivate sys (update_user sys user_id upd now).2
  | generate (sys : PairingSystem) (owner_id : String) (max_uses expires_hours : Int)
      (theme : CodeTheme) (is_animated : Bool) (metadata : String) (now : Int)
      (code : String) (hfresh : lookupA sys.codes code = none) :
      Step hashFn allowReactivate sys
        (generate_pairing_code sys owner_id max_uses expires_hours theme
          is_animated metadata now code).2
  | use (sys : PairingSystem) (code user_id : String) (now : Int)
      (pairing_id : String) (hfresh : lookupA sys.pairings pairing_id = none) :
      Step hashFn allowReactivate sys
        (use_pairing_code hashFn sys code user_id now pairing_id).2
  | update_status (sys : PairingSystem) (pairing_id : String)
      (status : PairingStatus) (now : Int)
      (hallow : status = PairingStatus.active → allowReactivate = true) :
      Step hashFn allowReactivate sys
        (update_pairing_status sys pairing_id status now).2
  | delete (sys : PairingSystem) (pairing_id : String) :
      Step hashFn allowReactivate sys (delete_pairing sys pairing_id).2
  | cleanup (sys : PairingSystem) (now : Int) :
      Step hashFn allowReactivate sys (cleanup_expired sys now).2

/-- States reachable from a fresh store through the public operations. -/
inductive Reachable (hashFn : String → Int) (allowReactivate : Bool) :
    PairingSystem → Prop where
  | init : Reachable hashFn allowReactivate emptySystem
  | step {s s' : PairingSystem} : Reachable hashFn allowReactivate s →
      Step hashFn allowReactivate s s' → Reachable hashFn allowReactivate s'

/-- Two pairings relate the same unordered pair `{a, b}`. -/
def members_match (p : Pairing) (a b : String) : Prop :=
  (p.user1_id = a ∧ p.user2_id = b) ∨ (p.user1_id = b ∧ p.user2_id = a)

instance (p : Pairing) (a b : String) : Decidable (members_match p a b) := by
  unfold members_match
  infer_instance

/-- The C1 invariant: between any two distinct users there is at most one
stored pairing with status `active`. -/
def at_most_one_active (sys : PairingSystem) : Prop :=
  ∀ a b pid₁ pid₂ p₁ p₂, a ≠ b →
    lookupA sys.pairings pid₁ = some p₁ → lookupA sys.pairings pid₂ = some p₂ →
    members_match p₁ a b → members_match p₂ a b →
    p₁.status = PairingStatus.active → p₂.status = PairingStatus.active →
    pid₁ = pid₂

/-- Structural well-formedness of the store, maintained by every public
operation: the index is complete and sound for the pairings map, index
entries exist exactly for registered users, pairing members and code owners
are registered, and the maps have no duplicate keys. -/
structure WF (sys : PairingSystem) : Prop where
  users_nodup : (sys.users.map Prod.fst).Nodup
  codes_nodup : (sys.codes.map Prod.fst).Nodup
  pairings_nodup : (sys.pairings.map Prod.fst).Nodup
  index_nodup : (sys.user_pairings.map Prod.fst).Nodup
  complete : ∀ pid p, lookupA sys.pairings pid = some p →
    (∃ l, lookupA sys.user_pairings p.user1_id = some l ∧ pid ∈ l) ∧
    (∃ l, lookupA sys.user_pairings p.user2_id = some l ∧ pid ∈ l)
  sound : ∀ uid l, lookupA sys.user_pairings uid = some l →
    ∀ pid ∈ l, ∃ p, lookupA sys.pairings pid = some p ∧
      (p.user1_id = uid ∨ p.user2_id = uid)
  entry_of_user : ∀ uid u, lookupA sys.users uid = some u →
    ∃ l, lookupA sys.user_pairings uid = some l
  user_of_entry : ∀ uid l, lookupA sys.user_pairings uid = some l →
    ∃ u, lookupA sys.users uid = some u
  members_registered : ∀ pid p, lookupA sys.pairings pid = some p →
    (∃ u, lookupA sys.users p.user1_id = some u) ∧
    (∃ u, lookupA sys.users p.user2_id = some u)
  owner_registered : ∀ c pc, lookupA sys.codes c = some pc →
    ∃ u, lookupA sys.users pc.owner_id = some u

theorem wf_empty : WF emptySystem := by
  constructor <;> simp [emptySystem, lookupA]

/-!
## Preservation of well-formedness
-/

theorem lookupA_insertA_isSome_mono {α : Type} (m : List (String × α))
    (k : String) (v : α) (x : String) (h : (lookupA m x).isSome) :
    (lookupA (insertA m k v) x).isSome := by
  rw [lookupA_insertA]
  split <;> simp_all

theorem scan_ok_none_iff (pairings : List (String × Pairing)) (target : String)
    (l : List String) :
    scan_for_active pairings target l = .ok none ↔
      ∀ pid ∈ l, ∃ p, lookupA pairings pid = some p ∧
        ¬((p.user1_id = target ∨ p.user2_id = target) ∧
          p.status = PairingStatus.active) := by
  induction l with
  | nil => simp [scan_for_active]
  | cons pid rest ih =>
      cases hp : lookupA pairings pid with
      | none =>
          simp only [scan_for_active, hp]
          constructor
          · intro h
            exact absurd h (by simp)
          · intro h
            obtain ⟨p, hsome, -⟩ := h pid (List.mem_cons_self _ _)
            simp [hsome] at hp
      | some p =>
          by_cases hm : (p.user1_id = target ∨ p.user2_id = target) ∧
              p.status = PairingStatus.active
          · simp only [scan_for_active, hp, if_pos hm]
            constructor
            · intro h
              exact absurd h (by simp)
            · intro h
              obtain ⟨q, hsome, hnot⟩ := h pid (List.mem_cons_self _ _)
              rw [hp] at hsome
              injection hsome with hq
              subst hq
              exact absurd hm hnot
          · simp only [scan_for_active, hp, if_neg hm, ih]
            constructor
            · intro h pid' hmem
              rcases List.mem_cons.1 hmem with h' | h'
              · subst h'
                exact ⟨p, hp, hm⟩
              · exact h pid' h'
            · intro h pid' hmem
              exact h pid' (List.mem_cons_of_mem _ hmem)

theorem scan_some_spec (pairings : List (String × Pairing)) (target : String)
    (l : List String) (pid : String)
    (h : scan_for_active pairings target l = .ok (some pid)) :
    pid ∈ l ∧ ∃ p, lookupA pairings pid = some p ∧
      (p.user1_id = target ∨ p.user2_id = target) ∧
      p.status = PairingStatus.active := by
  induction l with
  | nil => simp [scan_for_active] at h
  | cons pid₀ rest ih =>
      cases hp : lookupA pairings pid₀ with
      | none => simp [scan_for_active, hp] at h
      | some p =>
          by_cases hm : (p.user1_id = target ∨ p.user2_id = target) ∧
              p.status = PairingStatus.active
          · simp only [scan_for_active, hp, if_pos hm, Except.ok.injEq,
              Option.some.injEq] at h
            subst h
            exact ⟨List.mem_cons_self _ _, p, hp, hm⟩
          · simp only [scan_for_active, hp, if_neg hm] at h
            obtain ⟨hmem, hrest⟩ := ih h
            exact ⟨List.mem_cons_of_mem _ hmem, hrest⟩

theorem scan_finds_match (pairings : List (String × Pairing)) (target : String)
    (l : List String)
    (hall : ∀ pid ∈ l, (lookupA pairings pid).isSome)
    (hex : ∃ pid ∈ l, ∃ p, lookupA pairings pid = some p ∧
      (p.user1_id = target ∨ p.user2_id = target) ∧
      p.status = PairingStatus.active) :
    ∃ q, scan_for_active pairings target l = .ok (some q) := by
  induction l with
  | nil => simp at hex
  | cons pid₀ rest ih =>
      cases hp : lookupA pairings pid₀ with
      | none =>
          have := hall pid₀ (List.mem_cons_self _ _)
          simp [hp] at this
      | some p =>
          by_cases hm : (p.user1_id = target ∨ p.user2_id = target) ∧
              p.status = PairingStatus.active
          · exact ⟨pid₀, by simp [scan_for_active, hp, hm]⟩
          · simp only [scan_for_active, hp, if_neg hm]
            apply ih
            · exact fun pid hm' => hall pid (List.mem_cons_of_mem _ hm')
            · obtain ⟨pid, hmem, q, hq, hmatch⟩ := hex
              rcases List.mem_cons.1 hmem with h | h
              · subst h
                rw [hp] at hq
                injection hq with hq
                subst hq
                exact absurd hmatch hm
              · exact ⟨pid, h, q, hq, hmatch⟩


/-- Overwriting an existing user's profile (same key) preserves
well-formedness: every WF field about `users` only asks for key presence. -/
theorem wf_users_overwrite (sys : PairingSystem) (uid : String)
    (user u' : UserProfile) (hl : lookupA sys.users uid = some user)
    (h : WF sys) : WF { sys with users := insertA sys.users uid u' } := by
  have hkey : ∀ x, (lookupA sys.users x).isSome →
      ∃ w, lookupA (insertA sys.users uid u') x = some w := by
    intro x hx
    have := lookupA_insertA_isSome_mono sys.users uid u' x hx
    cases hres : lookupA (insertA sys.users uid u') x with
    | none => rw [hres] at this; simp at this
    | some w => exact ⟨w, rfl⟩
  constructor
  · exact insertA_nodup_keys _ _ _ h.users_nodup
  · exact h.codes_nodup
  · exact h.pairings_nodup
  · exact h.index_nodup
  · exact h.complete
  · exact h.sound
  · intro uid' u hu'
    by_cases he : uid = uid'
    · subst he
      exact h.entry_of_user uid user hl
    · rw [lookupA_insertA_ne _ _ _ _ he] at hu'
      exact h.entry_of_user uid' u hu'
  · intro uid' l hl'
    obtain ⟨u, hu'⟩ := h.user_of_entry uid' l hl'
    exact hkey uid' (by simp [hu'])
  · intro pid p hp
    obtain ⟨⟨u₁, hu₁⟩, ⟨u₂, hu₂⟩⟩ := h.members_registered pid p hp
    exact ⟨hkey _ (by simp [hu₁]), hkey _ (by simp [hu₂])⟩
  · intro c pc hc
    obtain ⟨u, hu'⟩ := h.owner_registered c pc hc
    exact hkey _ (by simp [hu'])

theorem wf_register_user (sys : PairingSystem) (user_id username : String)
    (extra : RegisterExtra) (now : Int) (h : WF sys) :
    WF (register_user sys user_id username extra now).2 := by
  by_cases hu : (lookupA sys.users user_id).isSome
  · simpa [register_user, hu] using h
  · cases hv : validate_user_data user_id username extra with
    | error e => simpa [register_user, hu, hv] using h
    | ok _ =>
        have hunone : lookupA sys.users user_id = none := by
          cases hl : lookupA sys.users user_id with
          | none => rfl
          | some u => simp [hl] at hu
        have hidxnone : lookupA sys.user_pairings user_id = none := by
          cases hl : lookupA sys.user_pairings user_id with
          | none => rfl
          | some l =>
              obtain ⟨u, hu'⟩ := h.user_of_entry user_id l hl
              simp [hu'] at hunone
        have hstate : (register_user sys user_id username extra now).2 =
            { sys with
              users := insertA sys.users user_id
                { user_id := user_id, username := username, email := extra.email,
                  avatar_url := extra.avatar_url, preferences := extra.preferences,
                  interests := extra.interests, created_at := now,
                  last_active := now, is_verified := extra.is_verified },
              user_pairings := insertA sys.user_pairings user_id [] } := by
          simp [register_user, hu, hv]
        rw [hstate]
        refine ⟨?_, ?_, ?_, ?_, ?_, ?_, ?_, ?_, ?_, ?_⟩ <;> dsimp only
        · exact insertA_nodup_keys _ _ _ h.users_nodup
        · exact h.codes_nodup
        · exact h.pairings_nodup
        · exact insertA_nodup_keys _ _ _ h.index_nodup
        · intro pid p hp
          obtain ⟨⟨l₁, hl₁, hm₁⟩, ⟨l₂, hl₂, hm₂⟩⟩ := h.complete pid p hp
          have h₁ : user_id ≠ p.user1_id := fun hc => by
            rw [← hc] at hl₁; simp [hidxnone] at hl₁
          have h₂ : user_id ≠ p.user2_id := fun hc => by
            rw [← hc] at hl₂; simp [hidxnone] at hl₂
          exact ⟨⟨l₁, by rwa [lookupA_insertA_ne _ _ _ _ h₁], hm₁⟩,
                 ⟨l₂, by rwa [lookupA_insertA_ne _ _ _ _ h₂], hm₂⟩⟩
        · intro uid l hl
          by_cases he : user_id = uid
          · subst he
            rw [lookupA_insertA_self] at hl
            injection hl with hl
            subst hl
            simp
          · rw [lookupA_insertA_ne _ _ _ _ he] at hl
            exact h.sound uid l hl
        · intro uid u hu'
          by_cases he : user_id = uid
          · subst he
            exact ⟨[], lookupA_insertA_self _ _ _⟩
          · rw [lookupA_insertA_ne _ _ _ _ he] at hu'
            obtain ⟨l, hl⟩ := h.entry_of_user uid u hu'
            exact ⟨l, by rwa [lookupA_insertA_ne _ _ _ _ he]⟩
        · intro uid l hl
          by_cases he : user_id = uid
          · subst he
            exact ⟨_, lookupA_insertA_self _ _ _⟩
          · rw [lookupA_insertA_ne _ _ _ _ he] at hl
            obtain ⟨u, hu'⟩ := h.user_of_entry uid l hl
            exact ⟨u, by rwa [lookupA_insertA_ne _ _ _ _ he]⟩
        · intro pid p hp
          obtain ⟨⟨u₁, hu₁⟩, ⟨u₂, hu₂⟩⟩ := h.members_registered pid p hp
          have h₁ : user_id ≠ p.user1_id := fun hc => by
            rw [← hc] at hu₁; simp [hunone] at hu₁
          have h₂ : user_id ≠ p.user2_id := fun hc => by
            rw [← hc] at hu₂; simp [hunone] at hu₂
          exact ⟨⟨u₁, by rwa [lookupA_insertA_ne _ _ _ _ h₁]⟩,
                 ⟨u₂, by rwa [lookupA_insertA_ne _ _ _ _ h₂]⟩⟩
        · intro c pc hc
          obtain ⟨u, hu'⟩ := h.owner_registered c pc hc
          have hne : user_id ≠ pc.owner_id := fun he => by
            rw [← he] at hu'; simp [hunone] at hu'
          exact ⟨u, by rwa [lookupA_insertA_ne _ _ _ _ hne]⟩

theorem wf_update_user (sys : PairingSystem) (user_id : String)
    (upd : UpdateFields) (now : Int) (h : WF sys) :
    WF (update_user sys user_id upd now).2 := by
  cases hl : lookupA sys.users user_id with
  | none => simpa [update_user, hl] using h
  | some user =>
      have hstate : (update_user sys user_id upd now).2 =
          { sys with
            users := insertA sys.users user_id
              ({ user with
                 username := upd.username.getD user.username,
                 email := upd.email.getD user.email,
                 avatar_url := upd.avatar_url.getD user.avatar_url,
                 preferences := upd.preferences.getD user.preferences,
                 interests := upd.interests.getD user.interests,
                 is_verified := upd.is_verified.getD user.is_verified,
                 last_active := now }) } := by
        simp [update_user, hl]
      rw [hstate]
      exact wf_users_overwrite sys user_id user _ hl h

theorem wf_generate_pairing_code (sys : PairingSystem) (owner_id : String)
    (max_uses expires_hours : Int) (theme : CodeTheme) (is_animated : Bool)
    (metadata : String) (now : Int) (code : String) (h : WF sys) :
    WF (generate_pairing_code sys owner_id max_uses expires_hours theme
      is_animated metadata now code).2 := by
  by_cases hu : (lookupA sys.users owner_id).isSome
  · have hstate : (generate_pairing_code sys owner_id max_uses expires_hours
        theme is_animated metadata now code).2 =
        { sys with
          codes := insertA sys.codes code
            ({ code := code, owner_id := owner_id, created_at := now,
               expires_at := now + expires_hours * 3600, max_uses := max_uses,
               uses_count := 0, theme := theme, is_animated := is_animated,
               is_active := true, metadata := metadata }) } := by
      simp [generate_pairing_code, hu]
    rw [hstate]
    refine ⟨h.users_nodup, insertA_nodup_keys _ _ _ h.codes_nodup,
      h.pairings_nodup, h.index_nodup, h.complete, h.sound, h.entry_of_user,
      h.user_of_entry, h.members_registered, ?_⟩
    intro c pc hc
    by_cases he : code = c
    · subst he
      rw [lookupA_insertA_self] at hc
      injection hc with hc
      subst hc
      obtain ⟨u, hu'⟩ := Option.isSome_iff_exists.1 hu
      exact ⟨u, hu'⟩
    · rw [lookupA_insertA_ne _ _ _ _ he] at hc
      exact h.owner_registered c pc hc
  · simpa [generate_pairing_code, hu] using h

theorem wf_update_pairing_status (sys : PairingSystem) (pairing_id : String)
    (status : PairingStatus) (now : Int) (h : WF sys) :
    WF (update_pairing_status sys pairing_id status now).2 := by
  cases hp : lookupA sys.pairings pairing_id with
  | none => simpa [update_pairing_status, hp] using h
  | some p =>
      have hstate : (update_pairing_status sys pairing_id status now).2 =
          { sys with
            pairings := insertA sys.pairings pairing_id
              ({ p with status := status, last_interaction := now }) } := by
        simp [update_pairing_status, hp]
      rw [hstate]
      refine ⟨h.users_nodup, h.codes_nodup,
        insertA_nodup_keys _ _ _ h.pairings_nodup, h.index_nodup, ?_, ?_,
        h.entry_of_user, h.user_of_entry, ?_, h.owner_registered⟩
      · intro pid q hq
        by_cases he : pairing_id = pid
        · subst he
          rw [lookupA_insertA_self] at hq
          injection hq with hq
          subst hq
          exact h.complete pairing_id p hp
        · rw [lookupA_insertA_ne _ _ _ _ he] at hq
          exact h.complete pid q hq
      · intro uid l hl pid hpid
        obtain ⟨q, hq, hmem⟩ := h.sound uid l hl pid hpid
        by_cases he : pairing_id = pid
        · subst he
          rw [hp] at hq
          injection hq with hq
          subst hq
          exact ⟨_, lookupA_insertA_self _ _ _, hmem⟩
        · exact ⟨q, by rwa [lookupA_insertA_ne _ _ _ _ he], hmem⟩
      · intro pid q hq
        by_cases he : pairing_id = pid
        · subst he
          rw [lookupA_insertA_self] at hq
          injection hq with hq
          subst hq
          exact h.members_registered pairing_id p hp
        · rw [lookupA_insertA_ne _ _ _ _ he] at hq
          exact h.members_registered pid q hq

theorem lookupA_prune_index (idx : List (String × List String))
    (user_id pairing_id : String) (x : String) :
    lookupA (prune_index idx user_id pairing_id) x =
      if user_id = x then
        (lookupA idx x).map (fun l => l.filter (fun pid => pid ≠ pairing_id))
      else lookupA idx x := by
  unfold prune_index
  cases hl : lookupA idx user_id with
  | none =>
      by_cases he : user_id = x
      · subst he
        simp [hl]
      · simp [he]
  | some l =>
      rw [lookupA_insertA]
      by_cases he : user_id = x
      · subst he
        simp [hl]
      · simp [he]

theorem prune_index_nodup (idx : List (String × List String))
    (user_id pairing_id : String) (h : (idx.map Prod.fst).Nodup) :
    ((prune_index idx user_id pairing_id).map Prod.fst).Nodup := by
  unfold prune_index
  cases lookupA idx user_id with
  | none => exact h
  | some l => exact insertA_nodup_keys _ _ _ h

theorem wf_delete_pairing (sys : PairingSystem) (pairing_id : String)
    (h : WF sys) : WF (delete_pairing sys pairing_id).2 := by
  cases hp : lookupA sys.pairings pairing_id with
  | none => simpa [delete_pairing, hp] using h
  | some p =>
      have hstate : (delete_pairing sys pairing_id).2 =
          { sys with pairings := eraseA sys.pairings pairing_id,
                     user_pairings := prune_index
                       (prune_index sys.user_pairings p.user1_id pairing_id)
                       p.user2_id pairing_id } := by
        simp [delete_pairing, hp]
      rw [hstate]
      have hidx : ∀ x, lookupA (prune_index
          (prune_index sys.user_pairings p.user1_id pairing_id)
          p.user2_id pairing_id) x =
          if p.user1_id = x ∨ p.user2_id = x then
            (lookupA sys.user_pairings x).map
              (fun l => l.filter (fun pid => pid ≠ pairing_id))
          else lookupA sys.user_pairings x := by
        intro x
        have hfil : ∀ (l : List String),
            (l.filter (fun pid => pid ≠ pairing_id)).filter
                (fun pid => pid ≠ pairing_id) =
              l.filter (fun pid => pid ≠ pairing_id) := by
          intro l
          rw [List.filter_filter]
          simp
        rw [lookupA_prune_index, lookupA_prune_index]
        by_cases h₂ : p.user2_id = x
        · by_cases h₁ : p.user1_id = x
          · simp only [h₁, h₂, if_pos, or_self, if_true, Option.map_map]
            cases lookupA sys.user_pairings x <;>
              simp [Function.comp, hfil]
          · simp [h₁, h₂]
        · by_cases h₁ : p.user1_id = x <;> simp [h₁, h₂]
      refine ⟨h.users_nodup, h.codes_nodup,
        eraseA_nodup_keys _ _ h.pairings_nodup,
        prune_index_nodup _ _ _ (prune_index_nodup _ _ _ h.index_nodup),
        ?_, ?_, ?_, ?_, ?_, ?_⟩
      · -- completeness
        intro pid q hq
        have hne : pairing_id ≠ pid := fun he => by
          rw [← he, lookupA_eraseA_self _ _ h.pairings_nodup] at hq
          cases hq
        rw [lookupA_eraseA_ne _ _ _ hne] at hq
        obtain ⟨⟨l₁, hl₁, hm₁⟩, ⟨l₂, hl₂, hm₂⟩⟩ := h.complete pid q hq
        constructor
        · rw [hidx q.user1_id]
          by_cases hmem : p.user1_id = q.user1_id ∨ p.user2_id = q.user1_id
          · rw [if_pos hmem, hl₁]
            exact ⟨_, rfl, List.mem_filter.2 ⟨hm₁, by simp [Ne.symm hne]⟩⟩
          · rw [if_neg hmem]
            exact ⟨l₁, hl₁, hm₁⟩
        · rw [hidx q.user2_id]
          by_cases hmem : p.user1_id = q.user2_id ∨ p.user2_id = q.user2_id
          · rw [if_pos hmem, hl₂]
            exact ⟨_, rfl, List.mem_filter.2 ⟨hm₂, by simp [Ne.symm hne]⟩⟩
          · rw [if_neg hmem]
            exact ⟨l₂, hl₂, hm₂⟩
      · -- soundness
        intro uid l hl pid hpid
        rw [hidx uid] at hl
        by_cases hmem : p.user1_id = uid ∨ p.user2_id = uid
        · rw [if_pos hmem] at hl
          cases hl₀ : lookupA sys.user_pairings uid with
          | none => rw [hl₀] at hl; cases hl
          | some l₀ =>
              rw [hl₀] at hl
              injection hl with hl
              subst hl
              have hmem' := List.mem_filter.1 hpid
              obtain ⟨q, hq, hside⟩ := h.sound uid l₀ hl₀ pid hmem'.1
              have hne : pairing_id ≠ pid := by
                intro he
                subst he
                simp at hmem'
              exact ⟨q, by rwa [lookupA_eraseA_ne _ _ _ hne], hside⟩
        · rw [if_neg hmem] at hl
          obtain ⟨q, hq, hside⟩ := h.sound uid l hl pid hpid
          have hne : pairing_id ≠ pid := by
            intro he
            subst he
            rw [hp] at hq
            injection hq with hq
            subst hq
            exact hmem hside
          exact ⟨q, by rwa [lookupA_eraseA_ne _ _ _ hne], hside⟩
      · -- entry_of_user
        intro uid u hu'
        obtain ⟨l₀, hl₀⟩ := h.entry_of_user uid u hu'
        rw [hidx uid]
        by_cases hmem : p.user1_id = uid ∨ p.user2_id = uid
        · rw [if_pos hmem, hl₀]
          exact ⟨_, rfl⟩
        · rw [if_neg hmem]
          exact ⟨l₀, hl₀⟩
      · -- user_of_entry
        intro uid l hl
        rw [hidx uid] at hl
        by_cases hmem : p.user1_id = uid ∨ p.user2_id = uid
        · rw [if_pos hmem] at hl
          cases hl₀ : lookupA sys.user_pairings uid with
          | none => rw [hl₀] at hl; cases hl
          | some l₀ => exact h.user_of_entry uid l₀ hl₀
        · rw [if_neg hmem] at hl
          exact h.user_of_entry uid l hl
      · -- members_registered
        intro pid q hq
        have hne : pairing_id ≠ pid := fun he => by
          rw [← he, lookupA_eraseA_self _ _ h.pairings_nodup] at hq
          cases hq
        rw [lookupA_eraseA_ne _ _ _ hne] at hq
        exact h.members_registered pid q hq
      · exact h.owner_registered

theorem lookupA_map_cond {α : Type} (P : α → Prop) [DecidablePred P]
    (g : α → α) (l : List (String × α)) (k : String) :
    lookupA (l.map (fun e => if P e.2 then (e.1, g e.2) else e)) k =
      (lookupA l k).map (fun v => if P v then g v else v) := by
  induction l with
  | nil => simp [lookupA]
  | cons hd tl ih =>
      obtain ⟨k₀, v₀⟩ := hd
      simp only [List.map_cons]
      by_cases hP : P v₀
      · rw [if_pos hP]
        by_cases hk : k₀ = k <;> simp [lookupA, hk, ih, hP]
      · rw [if_neg hP]
        by_cases hk : k₀ = k <;> simp [lookupA, hk, ih, hP]

theorem keys_map_cond {α : Type} (P : α → Prop) [DecidablePred P]
    (g : α → α) (l : List (String × α)) :
    (l.map (fun e => if P e.2 then (e.1, g e.2) else e)).map Prod.fst =
      l.map Prod.fst := by
  induction l with
  | nil => simp
  | cons hd tl ih =>
      obtain ⟨k₀, v₀⟩ := hd
      simp only [List.map_cons]
      by_cases hP : P v₀
      · rw [if_pos hP]
        simp [ih]
      · rw [if_neg hP]
        simp [ih]

theorem cleanup_codes_lookup (sys : PairingSystem) (now : Int) (k : String) :
    lookupA (cleanup_expired sys now).2.codes k =
      (lookupA sys.codes k).map (fun pc =>
        if pc.expires_at < now then { pc with is_active := false } else pc) :=
  lookupA_map_cond (fun pc : PairingCode => pc.expires_at < now)
    (fun pc => { pc with is_active := false }) sys.codes k

theorem cleanup_pairings_lookup (sys : PairingSystem) (now : Int) (k : String) :
    lookupA (cleanup_expired sys now).2.pairings k =
      (lookupA sys.pairings k).map (fun p =>
        if p.status ≠ PairingStatus.active ∧
            p.last_interaction < now - 30 * 86400
        then { p with status := PairingStatus.archived } else p) :=
  lookupA_map_cond
    (fun p : Pairing => p.status ≠ PairingStatus.active ∧
      p.last_interaction < now - 30 * 86400)
    (fun p => { p with status := PairingStatus.archived }) sys.pairings k

theorem cleanup_codes_keys (sys : PairingSystem) (now : Int) :
    (cleanup_expired sys now).2.codes.map Prod.fst = sys.codes.map Prod.fst :=
  keys_map_cond (fun pc : PairingCode => pc.expires_at < now)
    (fun pc => { pc with is_active := false }) sys.codes

theorem cleanup_pairings_keys (sys : PairingSystem) (now : Int) :
    (cleanup_expired sys now).2.pairings.map Prod.fst = sys.pairings.map Prod.fst :=
  keys_map_cond
    (fun p : Pairing => p.status ≠ PairingStatus.active ∧
      p.last_interaction < now - 30 * 86400)
    (fun p => { p with status := PairingStatus.archived }) sys.pairings

theorem cleanup_users_eq (sys : PairingSystem) (now : Int) :
    (cleanup_expired sys now).2.users = sys.users := rfl

theorem cleanup_index_eq (sys : PairingSystem) (now : Int) :
    (cleanup_expired sys now).2.user_pairings = sys.user_pairings := rfl

theorem wf_cleanup_expired (sys : PairingSystem) (now : Int) (h : WF sys) :
    WF (cleanup_expired sys now).2 := by
  refine ⟨?_, ?_, ?_, ?_, ?_, ?_, ?_, ?_, ?_, ?_⟩
  · rw [cleanup_users_eq]
    exact h.users_nodup
  · rw [cleanup_codes_keys]
    exact h.codes_nodup
  · rw [cleanup_pairings_keys]
    exact h.pairings_nodup
  · rw [cleanup_index_eq]
    exact h.index_nodup
  · intro pid q hq
    rw [cleanup_pairings_lookup] at hq
    cases hq₀ : lookupA sys.pairings pid with
    | none => rw [hq₀] at hq; cases hq
    | some p₀ =>
        rw [hq₀, Option.map_some'] at hq
        injection hq with hq
        obtain ⟨⟨l₁, hl₁, hm₁⟩, ⟨l₂, hl₂, hm₂⟩⟩ := h.complete pid p₀ hq₀
        have h₁ : q.user1_id = p₀.user1_id := by rw [← hq]; split <;> rfl
        have h₂ : q.user2_id = p₀.user2_id := by rw [← hq]; split <;> rfl
        rw [cleanup_index_eq, h₁, h₂]
        exact ⟨⟨l₁, hl₁, hm₁⟩, ⟨l₂, hl₂, hm₂⟩⟩
  · intro uid l hl pid hpid
    rw [cleanup_index_eq] at hl
    obtain ⟨q, hq, hside⟩ := h.sound uid l hl pid hpid
    refine ⟨_, by rw [cleanup_pairings_lookup, hq]; rfl, ?_⟩
    dsimp only
    split <;> simpa using hside
  · intro uid u hu'
    rw [cleanup_users_eq] at hu'
    rw [cleanup_index_eq]
    exact h.entry_of_user uid u hu'
  · intro uid l hl
    rw [cleanup_index_eq] at hl
    rw [cleanup_users_eq]
    exact h.user_of_entry uid l hl
  · intro pid q hq
    rw [cleanup_pairings_lookup] at hq
    cases hq₀ : lookupA sys.pairings pid with
    | none => rw [hq₀] at hq; cases hq
    | some p₀ =>
        rw [hq₀, Option.map_some'] at hq
        injection hq with hq
        obtain ⟨⟨u₁, hu₁⟩, ⟨u₂, hu₂⟩⟩ := h.members_registered pid p₀ hq₀
        have h₁ : q.user1_id = p₀.user1_id := by rw [← hq]; split <;> rfl
        have h₂ : q.user2_id = p₀.user2_id := by rw [← hq]; split <;> rfl
        rw [cleanup_users_eq, h₁, h₂]
        exact ⟨⟨u₁, hu₁⟩, ⟨u₂, hu₂⟩⟩
  · intro c pc hc
    rw [cleanup_codes_lookup] at hc
    cases hc₀ : lookupA sys.codes c with
    | none => rw [hc₀] at hc; cases hc
    | some pc₀ =>
        rw [hc₀, Option.map_some'] at hc
        injection hc with hc
        obtain ⟨u, hu'⟩ := h.owner_registered c pc₀ hc₀
        have : pc.owner_id = pc₀.owner_id := by rw [← hc]; split <;> rfl
        rw [cleanup_users_eq, this]
        exact ⟨u, hu'⟩

/-!
## Execution characterizations of `use_pairing_code`
-/

theorem use_code_not_found (hashFn : String → Int) (sys : PairingSystem)
    (code user_id : String) (now : Int) (pairing_id : String)
    (hcode : lookupA sys.codes code = none) :
    use_pairing_code hashFn sys code user_id now pairing_id =
      (.ok (false, "Invalid pairing code"), sys) := by
  simp [use_pairing_code, hcode]

theorem use_code_invalid (hashFn : String → Int) (sys : PairingSystem)
    (code user_id : String) (now : Int) (pairing_id : String) (pc : PairingCode)
    (hcode : lookupA sys.codes code = some pc)
    (hvalid : pc.is_valid now = false) :
    use_pairing_code hashFn sys code user_id now pairing_id =
      (.ok (false, "Pairing code has expired or been used"), sys) := by
  simp [use_pairing_code, hcode, hvalid]

theorem use_code_self (hashFn : String → Int) (sys : PairingSystem)
    (code user_id : String) (now : Int) (pairing_id : String) (pc : PairingCode)
    (hcode : lookupA sys.codes code = some pc)
    (hvalid : pc.is_valid now = true) (howner : pc.owner_id = user_id) :
    use_pairing_code hashFn sys code user_id now pairing_id =
      (.ok (false, "Cannot pair with yourself"), sys) := by
  simp [use_pairing_code, hcode, hvalid, howner]

theorem use_code_already_paired (hashFn : String → Int) (sys : PairingSystem)
    (code user_id : String) (now : Int) (pairing_id : String) (pc : PairingCode)
    (q : String) (hcode : lookupA sys.codes code = some pc)
    (hvalid : pc.is_valid now = true) (howner : pc.owner_id ≠ user_id)
    (hfind : find_existing_pairing sys pc.owner_id user_id = .ok (some q)) :
    use_pairing_code hashFn sys code user_id now pairing_id =
      (.ok (false, "Users are already paired"), sys) := by
  simp [use_pairing_code, hcode, hvalid, howner, hfind]

theorem use_code_scan_error (hashFn : String → Int) (sys : PairingSystem)
    (code user_id : String) (now : Int) (pairing_id : String) (pc : PairingCode)
    (e : String) (hcode : lookupA sys.codes code = some pc)
    (hvalid : pc.is_valid now = true) (howner : pc.owner_id ≠ user_id)
    (hfind : find_existing_pairing sys pc.owner_id user_id = .error e) :
    use_pairing_code hashFn sys code user_id now pairing_id =
      (.error e, sys) := by
  simp [use_pairing_code, hcode, hvalid, howner, hfind]

/-- The pairing record created by a successful redemption. -/
def mk_redeemed_pairing (hashFn : String → Int) (pc : PairingCode)
    (user_id : String) (now : Int) (pairing_id : String)
    (user1 user2 : UserProfile) : Pairing :=
  { pairing_id := pairing_id, user1_id := pc.owner_id, user2_id := user_id,
    created_at := now, status := PairingStatus.active,
    compatibility_score := calculate_compatibility hashFn user1 user2,
    shared_interests := find_shared_interests user1 user2,
    last_interaction := now, metadata := "" }

theorem use_code_success (hashFn : String → Int) (sys : PairingSystem)
    (code user_id : String) (now : Int) (pairing_id : String) (pc : PairingCode)
    (user1 user2 : UserProfile) (l1 l2 : List String)
    (hcode : lookupA sys.codes code = some pc)
    (hvalid : pc.is_valid now = true) (howner : pc.owner_id ≠ user_id)
    (hfind : find_existing_pairing sys pc.owner_id user_id = .ok none)
    (hu1 : lookupA sys.users pc.owner_id = some user1)
    (hu2 : lookupA sys.users user_id = some user2)
    (hl1 : lookupA sys.user_pairings pc.owner_id = some l1)
    (hl2 : lookupA sys.user_pairings user_id = some l2) :
    use_pairing_code hashFn sys code user_id now pairing_id =
      (.ok (true, pairing_id),
        { users := sys.users,
          codes := insertA sys.codes code
            ({ pc with uses_count := pc.uses_count + 1 }),
          pairings := insertA sys.pairings pairing_id
            (mk_redeemed_pairing hashFn pc user_id now pairing_id user1 user2),
          user_pairings := insertA
            (insertA sys.user_pairings pc.owner_id (l1 ++ [pairing_id]))
            user_id (l2 ++ [pairing_id]) }) := by
  have huse : pc.use now = (true, { pc with uses_count := pc.uses_count + 1 }) := by
    simp [PairingCode.use, hvalid]
  have hl2' : lookupA (insertA sys.user_pairings pc.owner_id (l1 ++ [pairing_id]))
      user_id = some l2 := by
    rwa [lookupA_insertA_ne _ _ _ _ howner]
  simp [use_pairing_code, hcode, hvalid, howner, hfind, huse, hu1, hu2, hl1, hl2',
    mk_redeemed_pairing]

theorem use_code_owner_missing (hashFn : String → Int) (sys : PairingSystem)
    (code user_id : String) (now : Int) (pairing_id : String) (pc : PairingCode)
    (hcode : lookupA sys.codes code = some pc)
    (hvalid : pc.is_valid now = true) (howner : pc.owner_id ≠ user_id)
    (hfind : find_existing_pairing sys pc.owner_id user_id = .ok none)
    (hu1 : lookupA sys.users pc.owner_id = none) :
    use_pairing_code hashFn sys code user_id now pairing_id =
      (.error "KeyError",
        { sys with
          codes := insertA sys.codes code
            ({ pc with uses_count := pc.uses_count + 1 }) }) := by
  have huse : pc.use now = (true, { pc with uses_count := pc.uses_count + 1 }) := by
    simp [PairingCode.use, hvalid]
  simp [use_pairing_code, hcode, hvalid, howner, hfind, huse, hu1]

theorem use_code_redeemer_missing (hashFn : String → Int) (sys : PairingSystem)
    (code user_id : String) (now : Int) (pairing_id : String) (pc : PairingCode)
    (user1 : UserProfile) (hcode : lookupA sys.codes code = some pc)
    (hvalid : pc.is_valid now = true) (howner : pc.owner_id ≠ user_id)
    (hfind : find_existing_pairing sys pc.owner_id user_id = .ok none)
    (hu1 : lookupA sys.users pc.owner_id = some user1)
    (hu2 : lookupA sys.users user_id = none) :
    use_pairing_code hashFn sys code user_id now pairing_id =
      (.error "KeyError",
        { sys with
          codes := insertA sys.codes code
            ({ pc with uses_count := pc.uses_count + 1 }) }) := by
  have huse : pc.use now = (true, { pc with uses_count := pc.uses_count + 1 }) := by
    simp [PairingCode.use, hvalid]
  simp [use_pairing_code, hcode, hvalid, howner, hfind, huse, hu1, hu2]

/-- Overwriting a stored code by one with the same owner preserves WF. -/
theorem wf_codes_overwrite (sys : PairingSystem) (code : String)
    (pc pc' : PairingCode) (hcode : lookupA sys.codes code = some pc)
    (howner : pc'.owner_id = pc.owner_id) (h : WF sys) :
    WF { sys with codes := insertA sys.codes code pc' } := by
  refine ⟨h.users_nodup, insertA_nodup_keys _ _ _ h.codes_nodup,
    h.pairings_nodup, h.index_nodup, h.complete, h.sound, h.entry_of_user,
    h.user_of_entry, h.members_registered, ?_⟩
  intro c q hc
  by_cases he : code = c
  · subst he
    rw [lookupA_insertA_self] at hc
    injection hc with hc
    subst hc
    rw [howner]
    exact h.owner_registered code pc hcode
  · rw [lookupA_insertA_ne _ _ _ _ he] at hc
    exact h.owner_registered c q hc

theorem wf_use_pairing_code (hashFn : String → Int) (sys : PairingSystem)
    (code user_id : String) (now : Int) (pairing_id : String)
    (hfresh : lookupA sys.pairings pairing_id = none) (h : WF sys) :
    WF (use_pairing_code hashFn sys code user_id now pairing_id).2 := by
  cases hcode : lookupA sys.codes code with
  | none => rw [use_code_not_found hashFn sys code user_id now pairing_id hcode]; exact h
  | some pc =>
      cases hvalid : pc.is_valid now with
      | false =>
          rw [use_code_invalid hashFn sys code user_id now pairing_id pc hcode hvalid]
          exact h
      | true =>
          by_cases howner : pc.owner_id = user_id
          · rw [use_code_self hashFn sys code user_id now pairing_id pc hcode hvalid howner]
            exact h
          · cases hfind : find_existing_pairing sys pc.owner_id user_id with
            | error e =>
                rw [use_code_scan_error hashFn sys code user_id now pairing_id pc e
                  hcode hvalid howner hfind]
                exact h
            | ok found =>
                cases found with
                | some q =>
                    rw [use_code_already_paired hashFn sys code user_id now
                      pairing_id pc q hcode hvalid howner hfind]
                    exact h
                | none =>
                    cases hu1 : lookupA sys.users pc.owner_id with
                    | none =>
                        rw [use_code_owner_missing hashFn sys code user_id now
                          pairing_id pc hcode hvalid howner hfind hu1]
                        exact wf_codes_overwrite sys code pc _ hcode rfl h
                    | some user1 =>
                        cases hu2 : lookupA sys.users user_id with
                        | none =>
                            rw [use_code_redeemer_missing hashFn sys code user_id
                              now pairing_id pc user1 hcode hvalid howner hfind
                              hu1 hu2]
                            exact wf_codes_overwrite sys code pc _ hcode rfl h
                        | some user2 =>
                            obtain ⟨l1, hl1⟩ := h.entry_of_user _ user1 hu1
                            obtain ⟨l2, hl2⟩ := h.entry_of_user _ user2 hu2
                            rw [use_code_success hashFn sys code user_id now
                              pairing_id pc user1 user2 l1 l2 hcode hvalid howner
                              hfind hu1 hu2 hl1 hl2]
                            have hidx : ∀ x,
                                lookupA (insertA
                                  (insertA sys.user_pairings pc.owner_id
                                    (l1 ++ [pairing_id]))
                                  user_id (l2 ++ [pairing_id])) x =
                                if user_id = x then some (l2 ++ [pairing_id])
                                else if pc.owner_id = x then some (l1 ++ [pairing_id])
                                else lookupA sys.user_pairings x := by
                              intro x
                              rw [lookupA_insertA]
                              by_cases hx : user_id = x
                              · simp [hx]
                              · rw [if_neg hx, lookupA_insertA, if_neg hx]
                            refine ⟨h.users_nodup,
                              insertA_nodup_keys _ _ _ h.codes_nodup,
                              insertA_nodup_keys _ _ _ h.pairings_nodup,
                              insertA_nodup_keys _ _ _
                                (insertA_nodup_keys _ _ _ h.index_nodup),
                              ?_, ?_, ?_, ?_, ?_, ?_⟩
                            · -- completeness
                              intro pid q hq
                              rw [lookupA_insertA] at hq
                              by_cases hp : pairing_id = pid
                              · rw [if_pos hp] at hq
                                subst hp
                                injection hq with hq
                                subst hq
                                have hne : user_id ≠ pc.owner_id :=
                                  fun he => howner he.symm
                                constructor
                                · refine ⟨l1 ++ [pairing_id], ?_, by simp⟩
                                  show lookupA _ pc.owner_id = some (l1 ++ [pairing_id])
                                  rw [hidx, if_neg hne, if_pos rfl]
                                · refine ⟨l2 ++ [pairing_id], ?_, by simp⟩
                                  show lookupA _ user_id = some (l2 ++ [pairing_id])
                                  rw [hidx, if_pos rfl]
                              · rw [if_neg hp] at hq
                                obtain ⟨⟨la, hla, hma⟩, ⟨lb, hlb, hmb⟩⟩ :=
                                  h.complete pid q hq
                                constructor
                                · rw [hidx]
                                  by_cases hx : user_id = q.user1_id
                                  · rw [if_pos hx]
                                    rw [← hx] at hla
                                    rw [hl2] at hla
                                    injection hla with hla
                                    subst hla
                                    exact ⟨_, rfl, by simp [hma]⟩
                                  · rw [if_neg hx]
                                    by_cases hy : pc.owner_id = q.user1_id
                                    · rw [if_pos hy]
                                      rw [← hy] at hla
                                      rw [hl1] at hla
                                      injection hla with hla
                                      subst hla
                                      exact ⟨_, rfl, by simp [hma]⟩
                                    · rw [if_neg hy]
                                      exact ⟨la, hla, hma⟩
                                · rw [hidx]
                                  by_cases hx : user_id = q.user2_id
                                  · rw [if_pos hx]
                                    rw [← hx] at hlb
                                    rw [hl2] at hlb
                                    injection hlb with hlb
                                    subst hlb
                                    exact ⟨_, rfl, by simp [hmb]⟩
                                  · rw [if_neg hx]
                                    by_cases hy : pc.owner_id = q.user2_id
                                    · rw [if_pos hy]
                                      rw [← hy] at hlb
                                      rw [hl1] at hlb
                                      injection hlb with hlb
                                      subst hlb
                                      exact ⟨_, rfl, by simp [hmb]⟩
                                    · rw [if_neg hy]
                                      exact ⟨lb, hlb, hmb⟩
                            · -- soundness
                              intro uid l hl pid hpid
                              rw [hidx] at hl
                              have hold : ∀ l₀, lookupA sys.user_pairings uid = some l₀ →
                                  pid ∈ l₀ →
                                  ∃ p, lookupA (insertA sys.pairings pairing_id
                                    (mk_redeemed_pairing hashFn pc user_id now
                                      pairing_id user1 user2)) pid = some p ∧
                                    (p.user1_id = uid ∨ p.user2_id = uid) := by
                                intro l₀ hl₀ hpid₀
                                obtain ⟨p₀, hp₀, hside⟩ := h.sound uid l₀ hl₀ pid hpid₀
                                have hne : pairing_id ≠ pid := fun he => by
                                  rw [← he, hfresh] at hp₀; cases hp₀
                                exact ⟨p₀, by rwa [lookupA_insertA_ne _ _ _ _ hne], hside⟩
                              by_cases hx : user_id = uid
                              · rw [if_pos hx] at hl
                                injection hl with hl
                                subst hl
                                rcases List.mem_append.1 hpid with hm | hm
                                · exact hold l2 (hx ▸ hl2) hm
                                · have : pid = pairing_id := by simpa using hm
                                  subst this
                                  refine ⟨_, lookupA_insertA_self _ _ _, Or.inr ?_⟩
                                  simp [mk_redeemed_pairing, hx]
                              · rw [if_neg hx] at hl
                                by_cases hy : pc.owner_id = uid
                                · rw [if_pos hy] at hl
                                  injection hl with hl
                                  subst hl
                                  rcases List.mem_append.1 hpid with hm | hm
                                  · exact hold l1 (hy ▸ hl1) hm
                                  · have : pid = pairing_id := by simpa using hm
                                    subst this
                                    refine ⟨_, lookupA_insertA_self _ _ _, Or.inl ?_⟩
                                    simp [mk_redeemed_pairing, hy]
                                · rw [if_neg hy] at hl
                                  exact hold l hl hpid
                            · -- entry_of_user
                              intro uid u hu'
                              rw [hidx]
                              by_cases hx : user_id = uid
                              · rw [if_pos hx]
                                exact ⟨_, rfl⟩
                              · rw [if_neg hx]
                                by_cases hy : pc.owner_id = uid
                                · rw [if_pos hy]
                                  exact ⟨_, rfl⟩
                                · rw [if_neg hy]
                                  exact h.entry_of_user uid u hu'
                            · -- user_of_entry
                              intro uid l hl
                              rw [hidx] at hl
                              by_cases hx : user_id = uid
                              · exact ⟨user2, hx ▸ hu2⟩
                              · rw [if_neg hx] at hl
                                by_cases hy : pc.owner_id = uid
                                · exact ⟨user1, hy ▸ hu1⟩
                                · rw [if_neg hy] at hl
                                  exact h.user_of_entry uid l hl
                            · -- members_registered
                              intro pid q hq
                              rw [lookupA_insertA] at hq
                              by_cases hp : pairing_id = pid
                              · rw [if_pos hp] at hq
                                injection hq with hq
                                subst hq
                                exact ⟨⟨user1, hu1⟩, ⟨user2, hu2⟩⟩
                              · rw [if_neg hp] at hq
                                exact h.members_registered pid q hq
                            · -- owner_registered
                              intro c q hc
                              by_cases he : code = c
                              · subst he
                                rw [lookupA_insertA_self] at hc
                                injection hc with hc
                                subst hc
                                exact ⟨user1, hu1⟩
                              · rw [lookupA_insertA_ne _ _ _ _ he] at hc
                                exact h.owner_registered c q hc

theorem wf_step (hashFn : String → Int) (b : Bool) (s s' : PairingSystem)
    (hstep : Step hashFn b s s') (h : WF s) : WF s' := by
  cases hstep with
  | register user_id username extra now => exact wf_register_user _ _ _ _ _ h
  | update_user_op user_id upd now => exact wf_update_user _ _ _ _ h
  | generate owner_id max_uses expires_hours theme is_animated metadata now code hfresh =>
      exact wf_generate_pairing_code _ _ _ _ _ _ _ _ _ h
  | use code user_id now pairing_id hfresh =>
      exact wf_use_pairing_code _ _ _ _ _ _ hfresh h
  | update_status pairing_id status now hallow =>
      exact wf_update_pairing_status _ _ _ _ h
  | delete pairing_id => exact wf_delete_pairing _ _ h
  | cleanup now => exact wf_cleanup_expired _ _ h

theorem wf_reachable (hashFn : String → Int) (b : Bool) (sys : PairingSystem)
    (h : Reachable hashFn b sys) : WF sys := by
  induction h with
  | init => exact wf_empty
  | step hr hs ih => exact wf_step _ _ _ _ hs ih

theorem register_pairings_eq (sys : PairingSystem) (user_id username : String)
    (extra : RegisterExtra) (now : Int) :
    (register_user sys user_id username extra now).2.pairings = sys.pairings := by
  unfold register_user
  by_cases hu : (lookupA sys.users user_id).isSome
  · simp [hu]
  · cases hv : validate_user_data user_id username extra <;> simp [hu, hv]

theorem update_user_pairings_eq (sys : PairingSystem) (user_id : String)
    (upd : UpdateFields) (now : Int) :
    (update_user sys user_id upd now).2.pairings = sys.pairings := by
  unfold update_user
  cases lookupA sys.users user_id <;> simp

theorem generate_pairings_eq (sys : PairingSystem) (owner_id : String)
    (max_uses expires_hours : Int) (theme : CodeTheme) (is_animated : Bool)
    (metadata : String) (now : Int) (code : String) :
    (generate_pairing_code sys owner_id max_uses expires_hours theme
      is_animated metadata now code).2.pairings = sys.pairings := by
  unfold generate_pairing_code
  by_cases hu : (lookupA sys.users owner_id).isSome <;> simp [hu]

theorem amoa_of_pairings_eq (s s' : PairingSystem)
    (heq : s'.pairings = s.pairings) (hJ : at_most_one_active s) :
    at_most_one_active s' := by
  intro a b pid₁ pid₂ p₁ p₂ hab h₁ h₂
  rw [heq] at h₁ h₂
  exact hJ a b pid₁ pid₂ p₁ p₂ hab h₁ h₂

theorem amoa_step (hashFn : String → Int) (s s' : PairingSystem)
    (hstep : Step hashFn false s s') (hwf : WF s) (hJ : at_most_one_active s) :
    at_most_one_active s' := by
  cases hstep with
  | register user_id username extra now =>
      exact amoa_of_pairings_eq _ _ (register_pairings_eq _ _ _ _ _) hJ
  | update_user_op user_id upd now =>
      exact amoa_of_pairings_eq _ _ (update_user_pairings_eq _ _ _ _) hJ
  | generate owner_id max_uses expires_hours theme is_animated metadata now code hfresh =>
      exact amoa_of_pairings_eq _ _ (generate_pairings_eq _ _ _ _ _ _ _ _ _) hJ
  | cleanup now =>
      intro a b pid₁ pid₂ p₁ p₂ hab h₁ h₂ hm₁ hm₂ ha₁ ha₂
      rw [cleanup_pairings_lookup] at h₁ h₂
      cases hq₁ : lookupA s.pairings pid₁ with
      | none => rw [hq₁] at h₁; cases h₁
      | some q₁ =>
          cases hq₂ : lookupA s.pairings pid₂ with
          | none => rw [hq₂] at h₂; cases h₂
          | some q₂ =>
              rw [hq₁, Option.map_some'] at h₁
              rw [hq₂, Option.map_some'] at h₂
              injection h₁ with h₁
              injection h₂ with h₂
              have e₁ : p₁ = q₁ := by
                by_cases hcond : q₁.status ≠ PairingStatus.active ∧
                    q₁.last_interaction < now - 30 * 86400
                · rw [if_pos hcond] at h₁
                  rw [← h₁] at ha₁
                  exact absurd ha₁ (by simp)
                · rw [if_neg hcond] at h₁
                  exact h₁.symm
              have e₂ : p₂ = q₂ := by
                by_cases hcond : q₂.status ≠ PairingStatus.active ∧
                    q₂.last_interaction < now - 30 * 86400
                · rw [if_pos hcond] at h₂
                  rw [← h₂] at ha₂
                  exact absurd ha₂ (by simp)
                · rw [if_neg hcond] at h₂
                  exact h₂.symm
              subst e₁
              subst e₂
              exact hJ a b pid₁ pid₂ p₁ p₂ hab hq₁ hq₂ hm₁ hm₂ ha₁ ha₂
  | delete pairing_id =>
      intro a b pid₁ pid₂ p₁ p₂ hab h₁ h₂ hm₁ hm₂ ha₁ ha₂
      cases hp : lookupA s.pairings pairing_id with
      | none =>
          simp only [delete_pairing, hp] at h₁ h₂
          exact hJ a b pid₁ pid₂ p₁ p₂ hab h₁ h₂ hm₁ hm₂ ha₁ ha₂
      | some p =>
          have hstate : (delete_pairing s pairing_id).2.pairings =
              eraseA s.pairings pairing_id := by
            simp [delete_pairing, hp]
          rw [hstate] at h₁ h₂
          have hne₁ : pairing_id ≠ pid₁ := fun he => by
            rw [← he, lookupA_eraseA_self _ _ hwf.pairings_nodup] at h₁
            cases h₁
          have hne₂ : pairing_id ≠ pid₂ := fun he => by
            rw [← he, lookupA_eraseA_self _ _ hwf.pairings_nodup] at h₂
            cases h₂
          rw [lookupA_eraseA_ne _ _ _ hne₁] at h₁
          rw [lookupA_eraseA_ne _ _ _ hne₂] at h₂
          exact hJ a b pid₁ pid₂ p₁ p₂ hab h₁ h₂ hm₁ hm₂ ha₁ ha₂
  | update_status pairing_id status now hallow =>
      have hst : status ≠ PairingStatus.active := fun he => by
        simpa using hallow he
      intro a b pid₁ pid₂ p₁ p₂ hab h₁ h₂ hm₁ hm₂ ha₁ ha₂
      cases hp : lookupA s.pairings pairing_id with
      | none =>
          simp only [update_pairing_status, hp] at h₁ h₂
          exact hJ a b pid₁ pid₂ p₁ p₂ hab h₁ h₂ hm₁ hm₂ ha₁ ha₂
      | some p =>
          have hstate : (update_pairing_status s pairing_id status now).2.pairings =
              insertA s.pairings pairing_id
                ({ p with status := status, last_interaction := now }) := by
            simp [update_pairing_status, hp]
          rw [hstate, lookupA_insertA] at h₁ h₂
          have hne₁ : ¬ pairing_id = pid₁ := by
            intro he
            rw [if_pos he] at h₁
            injection h₁ with h₁
            rw [← h₁] at ha₁
            exact hst ha₁
          have hne₂ : ¬ pairing_id = pid₂ := by
            intro he
            rw [if_pos he] at h₂
            injection h₂ with h₂
            rw [← h₂] at ha₂
            exact hst ha₂
          rw [if_neg hne₁] at h₁
          rw [if_neg hne₂] at h₂
          exact hJ a b pid₁ pid₂ p₁ p₂ hab h₁ h₂ hm₁ hm₂ ha₁ ha₂
  | use code user_id now pairing_id hfresh =>
      cases hcode : lookupA s.codes code with
      | none =>
          rw [use_code_not_found hashFn s code user_id now pairing_id hcode]
          exact hJ
      | some pc =>
          cases hvalid : pc.is_valid now with
          | false =>
              rw [use_code_invalid hashFn s code user_id now pairing_id pc hcode hvalid]
              exact hJ
          | true =>
              by_cases howner : pc.owner_id = user_id
              · rw [use_code_self hashFn s code user_id now pairing_id pc hcode
                  hvalid howner]
                exact hJ
              · cases hfind : find_existing_pairing s pc.owner_id user_id with
                | error e =>
                    rw [use_code_scan_error hashFn s code user_id now pairing_id
                      pc e hcode hvalid howner hfind]
                    exact hJ
                | ok found =>
                    cases found with
                    | some q =>
                        rw [use_code_already_paired hashFn s code user_id now
                          pairing_id pc q hcode hvalid howner hfind]
                        exact hJ
                    | none =>
                        cases hu1 : lookupA s.users pc.owner_id with
                        | none =>
                            rw [use_code_owner_missing hashFn s code user_id now
                              pairing_id pc hcode hvalid howner hfind hu1]
                            exact hJ
                        | some user1 =>
                            cases hu2 : lookupA s.users user_id with
                            | none =>
                                rw [use_code_redeemer_missing hashFn s code
                                  user_id now pairing_id pc user1 hcode hvalid
                                  howner hfind hu1 hu2]
                                exact hJ
                            | some user2 =>
                                obtain ⟨l1, hl1⟩ := hwf.entry_of_user _ user1 hu1
                                obtain ⟨l2, hl2⟩ := hwf.entry_of_user _ user2 hu2
                                rw [use_code_success hashFn s code user_id now
                                  pairing_id pc user1 user2 l1 l2 hcode hvalid
                                  howner hfind hu1 hu2 hl1 hl2]
                                -- no old active pairing exists between owner and
                                -- the redeemer: the scan over the owner's entry
                                -- returned none and the index is complete
                                have hnoold : ∀ pid₀ p₀,
                                    lookupA s.pairings pid₀ = some p₀ →
                                    p₀.status = PairingStatus.active →
                                    members_match p₀ pc.owner_id user_id → False := by
                                  intro pid₀ p₀ hp₀ hact hmm
                                  have hin : pid₀ ∈ l1 := by
                                    rcases hmm with ⟨ha', hb'⟩ | ⟨ha', hb'⟩
                                    · obtain ⟨⟨l, hl, hm⟩, -⟩ := hwf.complete pid₀ p₀ hp₀
                                      rw [ha', hl1] at hl
                                      injection hl with hl
                                      subst hl
                                      exact hm
                                    · obtain ⟨-, ⟨l, hl, hm⟩⟩ := hwf.complete pid₀ p₀ hp₀
                                      rw [hb', hl1] at hl
                                      injection hl with hl
                                      subst hl
                                      exact hm
                                  have hscan := (scan_ok_none_iff s.pairings user_id
                                    ((lookupA s.user_pairings pc.owner_id).getD [])).1
                                    (by
                                      unfold find_existing_pairing at hfind
                                      exact hfind) pid₀ (by rw [hl1]; exact hin)
                                  obtain ⟨p', hp', hnot⟩ := hscan
                                  rw [hp₀] at hp'
                                  injection hp' with hp'
                                  subst hp'
                                  apply hnot
                                  refine ⟨?_, hact⟩
                                  rcases hmm with ⟨ha', hb'⟩ | ⟨ha', hb'⟩
                                  · exact Or.inr hb'
                                  · exact Or.inl ha'
                                intro a b pid₁ pid₂ p₁ p₂ hab h₁ h₂ hm₁ hm₂ ha₁ ha₂
                                simp only [lookupA_insertA] at h₁ h₂
                                by_cases he₁ : pairing_id = pid₁
                                · rw [if_pos he₁] at h₁
                                  injection h₁ with h₁
                                  by_cases he₂ : pairing_id = pid₂
                                  · rw [← he₁, ← he₂]
                                  · rw [if_neg he₂] at h₂
                                    exfalso
                                    apply hnoold pid₂ p₂ h₂ ha₂
                                    -- p₁ is the new pairing between owner and user;
                                    -- p₂ matches the same unordered pair
                                    have hnew : p₁.user1_id = pc.owner_id ∧
                                        p₁.user2_id = user_id := by
                                      rw [← h₁]
                                      exact ⟨rfl, rfl⟩
                                    rcases hm₁ with ⟨hx, hy⟩ | ⟨hx, hy⟩
                                    · rw [hnew.1] at hx
                                      rw [hnew.2] at hy
                                      rcases hm₂ with ⟨hx', hy'⟩ | ⟨hx', hy'⟩
                                      · exact Or.inl ⟨by rw [hx', ← hx],
                                          by rw [hy', ← hy]⟩
                                      · exact Or.inr ⟨by rw [hx', ← hy],
                                          by rw [hy', ← hx]⟩
                                    · rw [hnew.1] at hx
                                      rw [hnew.2] at hy
                                      rcases hm₂ with ⟨hx', hy'⟩ | ⟨hx', hy'⟩
                                      · exact Or.inr ⟨by rw [hx', ← hy],
                                          by rw [hy', ← hx]⟩
                                      · exact Or.inl ⟨by rw [hx', ← hx],
                                          by rw [hy', ← hy]⟩
                                · rw [if_neg he₁] at h₁
                                  by_cases he₂ : pairing_id = pid₂
                                  · rw [if_pos he₂] at h₂
                                    injection h₂ with h₂
                                    exfalso
                                    apply hnoold pid₁ p₁ h₁ ha₁
                                    have hnew : p₂.user1_id = pc.owner_id ∧
                                        p₂.user2_id = user_id := by
                                      rw [← h₂]
                                      exact ⟨rfl, rfl⟩
                                    rcases hm₂ with ⟨hx, hy⟩ | ⟨hx, hy⟩
                                    · rw [hnew.1] at hx
                                      rw [hnew.2] at hy
                                      rcases hm₁ with ⟨hx', hy'⟩ | ⟨hx', hy'⟩
                                      · exact Or.inl ⟨by rw [hx', ← hx],
                                          by rw [hy', ← hy]⟩
                                      · exact Or.inr ⟨by rw [hx', ← hy],
                                          by rw [hy', ← hx]⟩
                                    · rw [hnew.1] at hx
                                      rw [hnew.2] at hy
                                      rcases hm₁ with ⟨hx', hy'⟩ | ⟨hx', hy'⟩
                                      · exact Or.inr ⟨by rw [hx', ← hy],
                                          by rw [hy', ← hx]⟩
                                      · exact Or.inl ⟨by rw [hx', ← hx],
                                          by rw [hy', ← hy]⟩
                                  · rw [if_neg he₂] at h₂
                                    exact hJ a b pid₁ pid₂ p₁ p₂ hab h₁ h₂ hm₁ hm₂ ha₁ ha₂

theorem amoa_reachable (hashFn : String → Int) (sys : PairingSystem)
    (h : Reachable hashFn false sys) : at_most_one_active sys := by
  induction h with
  | init =>
      intro a b pid₁ pid₂ p₁ p₂ hab h₁
      simp [emptySystem, lookupA] at h₁
  | step hr hs ih => exact amoa_step _ _ _ hs (wf_reachable _ _ _ hr) ih

theorem scan_no_error (pairings : List (String × Pairing)) (target : String)
    (l : List String) (hall : ∀ pid ∈ l, (lookupA pairings pid).isSome) :
    ∃ r, scan_for_active pairings target l = .ok r := by
  induction l with
  | nil => exact ⟨none, rfl⟩
  | cons pid rest ih =>
      cases hp : lookupA pairings pid with
      | none =>
          have := hall pid (List.mem_cons_self _ _)
          simp [hp] at this
      | some p =>
          by_cases hm : (p.user1_id = target ∨ p.user2_id = target) ∧
              p.status = PairingStatus.active
          · exact ⟨some pid, by simp [scan_for_active, hp, hm]⟩
          · obtain ⟨r, hr⟩ := ih (fun q hq => hall q (List.mem_cons_of_mem _ hq))
            exact ⟨r, by simp only [scan_for_active, hp, if_neg hm]; exact hr⟩

/-- Under a well-formed store, a redemption that has passed the lookup,
validity and self-pair checks fails with the already-paired message exactly
when some stored pairing between the code owner and the redeemer (in either
slot order) has status `active`. -/
theorem already_paired_iff (hashFn : String → Int) (sys : PairingSystem)
    (hwf : WF sys) (code user_id : String) (now : Int) (pairing_id : String)
    (pc : PairingCode) (hcode : lookupA sys.codes code = some pc)
    (hvalid : pc.is_valid now = true) (howner : pc.owner_id ≠ user_id) :
    (use_pairing_code hashFn sys code user_id now pairing_id).1 =
        .ok (false, "Users are already paired") ↔
      ∃ pid p, lookupA sys.pairings pid = some p ∧
        p.status = PairingStatus.active ∧ members_match p pc.owner_id user_id := by
  constructor
  · intro hres
    cases hentry : lookupA sys.user_pairings pc.owner_id with
    | none =>
        have hfind : find_existing_pairing sys pc.owner_id user_id = .ok none := by
          unfold find_existing_pairing
          rw [hentry]
          rfl
        exfalso
        cases hu1 : lookupA sys.users pc.owner_id with
        | none =>
            rw [use_code_owner_missing hashFn sys code user_id now pairing_id pc
              hcode hvalid howner hfind hu1] at hres
            cases hres
        | some user1 =>
            cases hu2 : lookupA sys.users user_id with
            | none =>
                rw [use_code_redeemer_missing hashFn sys code user_id now
                  pairing_id pc user1 hcode hvalid howner hfind hu1 hu2] at hres
                cases hres
            | some user2 =>
                obtain ⟨l1, hl1⟩ := hwf.entry_of_user _ user1 hu1
                rw [hl1] at hentry
                cases hentry
    | some l =>
        obtain ⟨r, hr⟩ := scan_no_error sys.pairings user_id l
          (fun pid hmem => by
            obtain ⟨p, hp, -⟩ := hwf.sound _ l hentry pid hmem
            simp [hp])
        have hfind : find_existing_pairing sys pc.owner_id user_id = .ok r := by
          unfold find_existing_pairing
          rw [hentry]
          exact hr
        cases r with
        | none =>
            exfalso
            cases hu1 : lookupA sys.users pc.owner_id with
            | none =>
                rw [use_code_owner_missing hashFn sys code user_id now pairing_id
                  pc hcode hvalid howner hfind hu1] at hres
                cases hres
            | some user1 =>
                cases hu2 : lookupA sys.users user_id with
                | none =>
                    rw [use_code_redeemer_missing hashFn sys code user_id now
                      pairing_id pc user1 hcode hvalid howner hfind hu1 hu2] at hres
                    cases hres
                | some user2 =>
                    obtain ⟨l1, hl1⟩ := hwf.entry_of_user _ user1 hu1
                    obtain ⟨l2, hl2⟩ := hwf.entry_of_user _ user2 hu2
                    rw [use_code_success hashFn sys code user_id now pairing_id pc
                      user1 user2 l1 l2 hcode hvalid howner hfind hu1 hu2 hl1 hl2]
                      at hres
                    cases hres
        | some q =>
            obtain ⟨hqmem, p, hp, hside, hact⟩ := scan_some_spec _ _ _ _ hr
            refine ⟨q, p, hp, hact, ?_⟩
            obtain ⟨p', hp', hown⟩ := hwf.sound _ l hentry q hqmem
            rw [hp] at hp'
            injection hp' with hp'
            subst hp'
            rcases hside with hside | hside
            · rcases hown with hown | hown
              · exact absurd (hown ▸ hside) howner
              · exact Or.inr ⟨hside, hown⟩
            · rcases hown with hown | hown
              · exact Or.inl ⟨hown, hside⟩
              · exact absurd (hown ▸ hside) howner
  · intro ⟨pid, p, hp, hact, hmm⟩
    have hentry : ∃ l, lookupA sys.user_pairings pc.owner_id = some l ∧ pid ∈ l := by
      rcases hmm with ⟨ha', hb'⟩ | ⟨ha', hb'⟩
      · obtain ⟨⟨l, hl, hm⟩, -⟩ := hwf.complete pid p hp
        exact ⟨l, ha' ▸ hl, hm⟩
      · obtain ⟨-, ⟨l, hl, hm⟩⟩ := hwf.complete pid p hp
        exact ⟨l, hb' ▸ hl, hm⟩
    obtain ⟨l, hl, hmem⟩ := hentry
    obtain ⟨q, hq⟩ := scan_finds_match sys.pairings user_id l
      (fun pid₀ hm₀ => by
        obtain ⟨p₀, hp₀, -⟩ := hwf.sound _ l hl pid₀ hm₀
        simp [hp₀])
      ⟨pid, hmem, p, hp, by
        rcases hmm with ⟨ha', hb'⟩ | ⟨ha', hb'⟩
        · exact Or.inr hb'
        · exact Or.inl ha', hact⟩
    have hfind : find_existing_pairing sys pc.owner_id user_id = .ok (some q) := by
      unfold find_existing_pairing
      rw [hl]
      exact hq
    rw [use_code_already_paired hashFn sys code user_id now pairing_id pc q
      hcode hvalid howner hfind]

/-- Sequential redemptions of one code by a list of (user, fresh pairing id)
pairs, threading the state. -/
def redeem_all (hashFn : String → Int) (code : String) (now : Int) :
    PairingSystem → List (String × String) →
    List (Except String (Bool × String)) × PairingSystem
  | sys, [] => ([], sys)
  | sys, (user_id, pairing_id) :: rest =>
      let r := use_pairing_code hashFn sys code user_id now pairing_id
      let rs := redeem_all hashFn code now r.2 rest
      (r.1 :: rs.1, rs.2)

theorem redeem_all_spec (hashFn : String → Int) (code o : String) (now M : Int) :
    ∀ (ups : List (String × String)) (sys : PairingSystem) (pc : PairingCode),
    lookupA sys.codes code = some pc →
    pc.owner_id = o →
    pc.is_active = true →
    now < pc.expires_at →
    pc.max_uses = M →
    (ups.length : Int) ≤ M - pc.uses_count →
    (∃ u, lookupA sys.users o = some u) →
    (∃ l, lookupA sys.user_pairings o = some l) →
    (ups.map Prod.fst).Nodup →
    (ups.map Prod.snd).Nodup →
    (∀ up ∈ ups, up.1 ≠ o ∧
      (∃ u, lookupA sys.users up.1 = some u) ∧
      (∃ l, lookupA sys.user_pairings up.1 = some l) ∧
      find_existing_pairing sys o up.1 = .ok none) →
    (∀ up ∈ ups, lookupA sys.pairings up.2 = none) →
    (redeem_all hashFn code now sys ups).1 =
        ups.map (fun up => .ok (true, up.2)) ∧
    lookupA (redeem_all hashFn code now sys ups).2.codes code =
        some { pc with uses_count := pc.uses_count + ups.length } ∧
    (redeem_all hashFn code now sys ups).2.users = sys.users ∧
    (∀ x, (lookupA sys.user_pairings x).isSome →
      (lookupA (redeem_all hashFn code now sys ups).2.user_pairings x).isSome) ∧
    (∀ pid p, lookupA sys.pairings pid = some p →
      lookupA (redeem_all hashFn code now sys ups).2.pairings pid = some p) ∧
    (∀ up ∈ ups,
      (lookupA (redeem_all hashFn code now sys ups).2.pairings up.2).isSome) ∧
    (∀ u, u ≠ o → u ∉ ups.map Prod.fst →
      find_existing_pairing sys o u = .ok none →
      find_existing_pairing (redeem_all hashFn code now sys ups).2 o u =
        .ok none) := by
  intro ups
  induction ups with
  | nil =>
      intro sys pc hcode hown hact hexp hmax hlen hu ho hnd1 hnd2 hall hfresh
      refine ⟨rfl, ?_, rfl, fun x hx => hx, fun pid p hp => hp,
        fun up hup => absurd hup (List.not_mem_nil _), fun u _ _ hf => hf⟩
      simpa [redeem_all] using hcode
  | cons up rest ih =>
      obtain ⟨u0, pid0⟩ := up
      intro sys pc hcode hown hact hexp hmax hlen hu ho hnd1 hnd2 hall hfresh
      subst hown
      obtain ⟨user1, hu1⟩ := hu
      obtain ⟨l1, hl1⟩ := ho
      obtain ⟨hne0, ⟨user2, hu2⟩, ⟨l2, hl2⟩, hfind0⟩ :=
        hall (u0, pid0) (List.mem_cons_self _ _)
      have hfresh0 : lookupA sys.pairings pid0 = none :=
        hfresh (u0, pid0) (List.mem_cons_self _ _)
      have hnd1' := hnd1
      rw [List.map_cons, List.nodup_cons] at hnd1'
      have hnd2' := hnd2
      rw [List.map_cons, List.nodup_cons] at hnd2'
      have hlenc : ((rest.length + 1 : Nat) : Int) ≤ M - pc.uses_count := by
        simpa using hlen
      have hvalid : pc.is_valid now = true := by
        simp only [PairingCode.is_valid, hact, Bool.true_and, Bool.and_eq_true,
          decide_eq_true_eq]
        refine ⟨by omega, hexp⟩
      have howner : pc.owner_id ≠ u0 := fun he => hne0 (he.symm)
      have hsucc := use_code_success hashFn sys code u0 now pid0 pc user1 user2
        l1 l2 hcode hvalid howner hfind0 hu1 hu2 hl1 hl2
      have hres4 : (use_pairing_code hashFn sys code u0 now pid0).1 =
          .ok (true, pid0) := by rw [hsucc]
      have hS4users : (use_pairing_code hashFn sys code u0 now pid0).2.users =
          sys.users := by rw [hsucc]
      have hS4codes : (use_pairing_code hashFn sys code u0 now pid0).2.codes =
          insertA sys.codes code ({ pc with uses_count := pc.uses_count + 1 }) := by
        rw [hsucc]
      have hS4pairings :
          (use_pairing_code hashFn sys code u0 now pid0).2.pairings =
          insertA sys.pairings pid0
            (mk_redeemed_pairing hashFn pc u0 now pid0 user1 user2) := by
        rw [hsucc]
      have hS4idx :
          (use_pairing_code hashFn sys code u0 now pid0).2.user_pairings =
          insertA (insertA sys.user_pairings pc.owner_id (l1 ++ [pid0]))
            u0 (l2 ++ [pid0]) := by
        rw [hsucc]
      have hidx4 : ∀ x,
          lookupA (use_pairing_code hashFn sys code u0 now pid0).2.user_pairings x =
          if u0 = x then some (l2 ++ [pid0])
          else if pc.owner_id = x then some (l1 ++ [pid0])
          else lookupA sys.user_pairings x := by
        intro x
        rw [hS4idx, lookupA_insertA]
        by_cases hx : u0 = x
        · simp [hx]
        · rw [if_neg hx, lookupA_insertA, if_neg hx]
      have hpair4 : ∀ pid p, lookupA sys.pairings pid = some p →
          lookupA (use_pairing_code hashFn sys code u0 now pid0).2.pairings pid =
            some p := by
        intro pid p hp
        have hne : pid0 ≠ pid := fun he => by rw [← he, hfresh0] at hp; cases hp
        rw [hS4pairings, lookupA_insertA_ne _ _ _ _ hne]
        exact hp
      have hfindpres : ∀ u', u' ≠ pc.owner_id → u' ≠ u0 →
          find_existing_pairing sys pc.owner_id u' = .ok none →
          find_existing_pairing
            (use_pairing_code hashFn sys code u0 now pid0).2 pc.owner_id u' =
            .ok none := by
        intro u' hne' hneu0 hf
        unfold find_existing_pairing at hf ⊢
        rw [hl1] at hf
        have ho4 : lookupA
            (use_pairing_code hashFn sys code u0 now pid0).2.user_pairings
            pc.owner_id = some (l1 ++ [pid0]) := by
          rw [hidx4, if_neg howner.symm, if_pos rfl]
        rw [ho4]
        simp only [Option.getD_some] at hf ⊢
        rw [scan_ok_none_iff] at hf ⊢
        intro pid hmem
        rcases List.mem_append.1 hmem with hm | hm
        · obtain ⟨p, hp, hnot⟩ := hf pid hm
          exact ⟨p, hpair4 pid p hp, hnot⟩
        · have hpe : pid = pid0 := by simpa using hm
          subst hpe
          refine ⟨mk_redeemed_pairing hashFn pc u0 now pid user1 user2,
            by rw [hS4pairings]; exact lookupA_insertA_self _ _ _, ?_⟩
          rintro ⟨hor, -⟩
          rcases hor with h' | h'
          · apply hne'
            simpa [mk_redeemed_pairing] using h'.symm
          · apply hneu0
            simpa [mk_redeemed_pairing] using h'.symm
      have ihres := ih (use_pairing_code hashFn sys code u0 now pid0).2
        ({ pc with uses_count := pc.uses_count + 1 })
        (by rw [hS4codes]; exact lookupA_insertA_self _ _ _)
        rfl hact hexp hmax
        (by
          show (rest.length : Int) ≤ M - (pc.uses_count + 1)
          omega)
        ⟨user1, by rw [hS4users]; exact hu1⟩
        ⟨l1 ++ [pid0], by rw [hidx4, if_neg howner.symm, if_pos rfl]⟩
        hnd1'.2
        hnd2'.2
        (by
          intro up hup
          obtain ⟨hne', hu', hl', hf'⟩ := hall up (List.mem_cons_of_mem _ hup)
          have hneu0 : up.1 ≠ u0 := by
            intro he
            have : u0 ∈ rest.map Prod.fst := by
              rw [← he]
              exact List.mem_map.2 ⟨up, hup, rfl⟩
            exact hnd1'.1 this
          refine ⟨hne', ?_, ?_, hfindpres up.1 hne' hneu0 hf'⟩
          · obtain ⟨u', hu''⟩ := hu'
            exact ⟨u', by rw [hS4users]; exact hu''⟩
          · rw [hidx4]
            by_cases hx : u0 = up.1
            · exact ⟨_, by rw [if_pos hx]⟩
            · rw [if_neg hx]
              by_cases hy : pc.owner_id = up.1
              · exact ⟨_, by rw [if_pos hy]⟩
              · rw [if_neg hy]
                exact hl')
        (by
          intro up hup
          have hne : up.2 ≠ pid0 := by
            intro he
            have : pid0 ∈ rest.map Prod.snd := by
              rw [← he]
              exact List.mem_map.2 ⟨up, hup, rfl⟩
            exact hnd2'.1 this
          rw [hS4pairings, lookupA_insertA_ne _ _ _ _ (fun he => hne he.symm)]
          exact hfresh up (List.mem_cons_of_mem _ hup))
      obtain ⟨ih1, ih2, ih3, ih4, ih5, ih6, ih7⟩ := ihres
      refine ⟨?_, ?_, ?_, ?_, ?_, ?_, ?_⟩
      · show (use_pairing_code hashFn sys code u0 now pid0).1 ::
            (redeem_all hashFn code now
              (use_pairing_code hashFn sys code u0 now pid0).2 rest).1 = _
        rw [hres4, ih1]
        simp
      · show lookupA (redeem_all hashFn code now
            (use_pairing_code hashFn sys code u0 now pid0).2 rest).2.codes code = _
        have harith : pc.uses_count + (((u0, pid0) :: rest).length : Int) =
            pc.uses_count + 1 + (rest.length : Int) := by
          simp
          ring
        rw [harith]
        exact ih2
      · show (redeem_all hashFn code now
            (use_pairing_code hashFn sys code u0 now pid0).2 rest).2.users = _
        rw [ih3, hS4users]
      · intro x hx
        show (lookupA (redeem_all hashFn code now
            (use_pairing_code hashFn sys code u0 now pid0).2 rest).2.user_pairings
            x).isSome = true
        apply ih4
        rw [hidx4]
        by_cases h1 : u0 = x
        · rw [if_pos h1]
          rfl
        · rw [if_neg h1]
          by_cases h2 : pc.owner_id = x
          · rw [if_pos h2]
            rfl
          · rw [if_neg h2]
            exact hx
      · intro pid p hp
        show lookupA (redeem_all hashFn code now
            (use_pairing_code hashFn sys code u0 now pid0).2 rest).2.pairings pid =
          some p
        exact ih5 pid p (hpair4 pid p hp)
      · intro up hup
        show (lookupA (redeem_all hashFn code now
            (use_pairing_code hashFn sys code u0 now pid0).2 rest).2.pairings
            up.2).isSome = true
        rcases List.mem_cons.1 hup with he | hm
        · subst he
          have := ih5 pid0 (mk_redeemed_pairing hashFn pc u0 now pid0 user1 user2)
            (by rw [hS4pairings]; exact lookupA_insertA_self _ _ _)
          simp [this]
        · exact ih6 up hm
      · intro u hne hnm hf
        show find_existing_pairing (redeem_all hashFn code now
            (use_pairing_code hashFn sys code u0 now pid0).2 rest).2
            pc.owner_id u = .ok none
        have hnmfst : u ∉ rest.map Prod.fst := by
          intro hc
          apply hnm
          simp at hc ⊢
          exact Or.inr hc
        have hneu0 : u ≠ u0 := by
          intro he
          apply hnm
          simp [he]
        exact ih7 u hne hnmfst (hfindpres u hne hneu0 hf)

/-!
## Idempotence behaviour of `cleanup_expired` (claim C4)
-/

theorem cleanup_codes_map_idem (now : Int) (l : List (String × PairingCode)) :
    (l.map (fun e => if e.2.expires_at < now
        then (e.1, { e.2 with is_active := false }) else e)).map
      (fun e => if e.2.expires_at < now
        then (e.1, { e.2 with is_active := false }) else e) =
    l.map (fun e => if e.2.expires_at < now
        then (e.1, { e.2 with is_active := false }) else e) := by
  induction l with
  | nil => simp
  | cons hd tl ih =>
      obtain ⟨k, pc⟩ := hd
      by_cases hc : pc.expires_at < now
      · simp only [List.map_cons, if_pos hc]
        rw [ih]
      · simp only [List.map_cons, if_neg hc]
        rw [ih]

theorem cleanup_codes_count_idem (now : Int) (l : List (String × PairingCode)) :
    ((l.map (fun e => if e.2.expires_at < now
        then (e.1, { e.2 with is_active := false }) else e)).filter
      (fun e => decide (e.2.expires_at < now))).length =
    (l.filter (fun e => decide (e.2.expires_at < now))).length := by
  induction l with
  | nil => simp
  | cons hd tl ih =>
      obtain ⟨k, pc⟩ := hd
      by_cases hc : pc.expires_at < now
      · simp only [List.map_cons, if_pos hc]
        simp only [List.filter_cons]
        simp [hc, ih]
      · simp only [List.map_cons, if_neg hc]
        simp only [List.filter_cons]
        simp [hc, ih]

theorem cleanup_pairings_map_idem (now : Int) (l : List (String × Pairing)) :
    (l.map (fun e => if e.2.status ≠ PairingStatus.active ∧
          e.2.last_interaction < now - 30 * 86400
        then (e.1, { e.2 with status := PairingStatus.archived }) else e)).map
      (fun e => if e.2.status ≠ PairingStatus.active ∧
          e.2.last_interaction < now - 30 * 86400
        then (e.1, { e.2 with status := PairingStatus.archived }) else e) =
    l.map (fun e => if e.2.status ≠ PairingStatus.active ∧
          e.2.last_interaction < now - 30 * 86400
        then (e.1, { e.2 with status := PairingStatus.archived }) else e) := by
  induction l with
  | nil => simp
  | cons hd tl ih =>
      obtain ⟨k, p⟩ := hd
      by_cases hc : p.status ≠ PairingStatus.active ∧
          p.last_interaction < now - 30 * 86400
      · have hlast : p.last_interaction < now - 2592000 := by
          have h2 := hc.2
          omega
        simp only [List.map_cons, if_pos hc]
        rw [ih]
        simp only [List.cons.injEq]
        refine ⟨?_, trivial⟩
        simp [hlast, hc.1]
      · simp only [List.map_cons, if_neg hc]
        rw [ih]

theorem cleanup_pairings_count_idem (now : Int) (l : List (String × Pairing)) :
    ((l.map (fun e => if e.2.status ≠ PairingStatus.active ∧
          e.2.last_interaction < now - 30 * 86400
        then (e.1, { e.2 with status := PairingStatus.archived }) else e)).filter
      (fun e => decide (e.2.status ≠ PairingStatus.active ∧
        e.2.last_interaction < now - 30 * 86400))).length =
    (l.filter (fun e => decide (e.2.status ≠ PairingStatus.active ∧
      e.2.last_interaction < now - 30 * 86400))).length := by
  induction l with
  | nil => simp
  | cons hd tl ih =>
      obtain ⟨k, p⟩ := hd
      by_cases hc : p.status ≠ PairingStatus.active ∧
          p.last_interaction < now - 30 * 86400
      · have hlast : p.last_interaction < now - 2592000 := by
          have h2 := hc.2
          omega
        have hlast' : p.last_interaction < now - 30 * 86400 := hc.2
        simp only [List.map_cons, if_pos hc]
        rw [List.filter_cons, List.filter_cons]
        rw [if_pos (by simp [hlast, hlast'] :
          ((fun e : String × Pairing => decide (e.2.status ≠ PairingStatus.active ∧
            e.2.last_interaction < now - 30 * 86400))
            (k, { p with status := PairingStatus.archived })) = true)]
        rw [if_pos (by simp [hc.1, hlast, hlast'] :
          ((fun e : String × Pairing => decide (e.2.status ≠ PairingStatus.active ∧
            e.2.last_interaction < now - 30 * 86400)) (k, p)) = true)]
        rw [List.length_cons, List.length_cons, ih]
      · have hcneg : ¬(¬ p.status = PairingStatus.active ∧
            p.last_interaction < now - 2592000) := by
          intro hcon
          refine hc ⟨hcon.1, ?_⟩
          have h2 := hcon.2
          omega
        simp only [List.map_cons, if_neg hc]
        rw [List.filter_cons, List.filter_cons]
        rw [if_neg (by simpa using hcneg :
          ¬ ((fun e : String × Pairing => decide (e.2.status ≠ PairingStatus.active ∧
            e.2.last_interaction < now - 30 * 86400)) (k, p)) = true)]
        rw [if_neg (by simpa using hcneg :
          ¬ ((fun e : String × Pairing => decide (e.2.status ≠ PairingStatus.active ∧
            e.2.last_interaction < now - 30 * 86400)) (k, p)) = true)]
        rw [ih]

/-- `cleanup_expired` run twice in a row: the state does not change further,
and the second call returns the same (not zero) counts. -/
theorem cleanup_expired_twice (sys : PairingSystem) (now : Int) :
    (cleanup_expired (cleanup_expired sys now).2 now).2 =
        (cleanup_expired sys now).2 ∧
      (cleanup_expired (cleanup_expired sys now).2 now).1 =
        (cleanup_expired sys now).1 := by
  constructor
  · show ({ (cleanup_expired sys now).2 with
      codes := (cleanup_expired sys now).2.codes.map (fun e =>
        if e.2.expires_at < now then (e.1, { e.2 with is_active := false })
        else e),
      pairings := (cleanup_expired sys now).2.pairings.map (fun e =>
        if e.2.status ≠ PairingStatus.active ∧
            e.2.last_interaction < now - 30 * 86400
        then (e.1, { e.2 with status := PairingStatus.archived }) else e) }
      : PairingSystem) = (cleanup_expired sys now).2
    have hc : (cleanup_expired sys now).2.codes.map (fun e =>
        if e.2.expires_at < now then (e.1, { e.2 with is_active := false })
        else e) = (cleanup_expired sys now).2.codes :=
      cleanup_codes_map_idem now sys.codes
    have hp : (cleanup_expired sys now).2.pairings.map (fun e =>
        if e.2.status ≠ PairingStatus.active ∧
            e.2.last_interaction < now - 30 * 86400
        then (e.1, { e.2 with status := PairingStatus.archived }) else e) =
        (cleanup_expired sys now).2.pairings :=
      cleanup_pairings_map_idem now sys.pairings
    rw [hc, hp]
  · show ((((cleanup_expired sys now).2.codes.filter (fun e =>
        decide (e.2.expires_at < now))).length,
      ((cleanup_expired sys now).2.pairings.filter (fun e =>
        decide (e.2.status ≠ PairingStatus.active ∧
          e.2.last_interaction < now - 30 * 86400))).length) : Nat × Nat) =
      ((sys.codes.filter (fun e => decide (e.2.expires_at < now))).length,
       (sys.pairings.filter (fun e => decide (e.2.status ≠ PairingStatus.active ∧
         e.2.last_interaction < now - 30 * 86400))).length)
    rw [Prod.mk.injEq]
    exact ⟨cleanup_codes_count_idem now sys.codes,
      cleanup_pairings_count_idem now sys.pairings⟩

/-!
## Export / import round trip (claim C8)
-/

theorem import_users_loop_good :
    ∀ (l : List (String × UserProfile)) (us : List (String × UserProfile))
      (idx : List (String × List String)),
    (∀ k ∈ l.map Prod.fst, lookupA us k = none) →
    (∀ k ∈ l.map Prod.fst, lookupA idx k = none) →
    (l.map Prod.fst).Nodup →
    import_users_loop (l.map (fun e => (e.1, RawEntity.good e.2))) us idx =
      .ok (us ++ l, idx ++ l.map (fun e => (e.1, ([] : List String)))) := by
  intro l
  induction l with
  | nil => intro us idx _ _ _; simp [import_users_loop]
  | cons hd tl ih =>
      obtain ⟨k, u⟩ := hd
      intro us idx hus hidx hnd
      rw [List.map_cons, List.nodup_cons] at hnd
      have husk : lookupA us k = none := hus k (by simp)
      have hidxk : lookupA idx k = none := hidx k (by simp)
      simp only [List.map_cons, import_users_loop]
      rw [insertA_append_of_fresh us k u husk,
        insertA_append_of_fresh idx k [] hidxk]
      rw [ih (us ++ [(k, u)]) (idx ++ [(k, [])])
        (fun k' hk' => by
          rw [lookupA_append_right us [(k, u)] k' (hus k' (by simp [hk']))]
          have : k ≠ k' := fun he => hnd.1 (he ▸ hk')
          simp [lookupA, this])
        (fun k' hk' => by
          rw [lookupA_append_right idx [(k, [])] k' (hidx k' (by simp [hk']))]
          have : k ≠ k' := fun he => hnd.1 (he ▸ hk')
          simp [lookupA, this])
        hnd.2]
      simp

theorem import_codes_loop_good :
    ∀ (l : List (String × PairingCode)) (cs : List (String × PairingCode)),
    (∀ k ∈ l.map Prod.fst, lookupA cs k = none) →
    (l.map Prod.fst).Nodup →
    import_codes_loop (l.map (fun e => (e.1, RawEntity.good e.2))) cs =
      .ok (cs ++ l) := by
  intro l
  induction l with
  | nil => intro cs _ _; simp [import_codes_loop]
  | cons hd tl ih =>
      obtain ⟨k, pc⟩ := hd
      intro cs hcs hnd
      rw [List.map_cons, List.nodup_cons] at hnd
      simp only [List.map_cons, import_codes_loop]
      rw [insertA_append_of_fresh cs k pc (hcs k (by simp))]
      rw [ih (cs ++ [(k, pc)])
        (fun k' hk' => by
          rw [lookupA_append_right cs [(k, pc)] k' (hcs k' (by simp [hk']))]
          have : k ≠ k' := fun he => hnd.1 (he ▸ hk')
          simp [lookupA, this])
        hnd.2]
      simp

theorem import_pairings_loop_good :
    ∀ (l : List (String × Pairing)) (ps : List (String × Pairing))
      (idx : List (String × List String)),
    (∀ k ∈ l.map Prod.fst, lookupA ps k = none) →
    (l.map Prod.fst).Nodup →
    import_pairings_loop (l.map (fun e => (e.1, RawEntity.good e.2))) ps idx =
      .ok (ps ++ l,
        l.foldl (fun ix e =>
          append_index (append_index ix e.2.user1_id e.1) e.2.user2_id e.1) idx) := by
  intro l
  induction l with
  | nil => intro ps idx _ _; simp [import_pairings_loop]
  | cons hd tl ih =>
      obtain ⟨k, p⟩ := hd
      intro ps idx hps hnd
      rw [List.map_cons, List.nodup_cons] at hnd
      simp only [List.map_cons, import_pairings_loop, List.foldl_cons]
      rw [insertA_append_of_fresh ps k p (hps k (by simp))]
      rw [ih (ps ++ [(k, p)]) _
        (fun k' hk' => by
          rw [lookupA_append_right ps [(k, p)] k' (hps k' (by simp [hk']))]
          have : k ≠ k' := fun he => hnd.1 (he ▸ hk')
          simp [lookupA, this])
        hnd.2]
      simp

/-- Export followed by import of the exported document succeeds and yields the
same three entity maps, with the index rebuilt from users and pairings. -/
theorem import_export_state (sys : PairingSystem) (now : Int)
    (h1 : (sys.users.map Prod.fst).Nodup)
    (h2 : (sys.codes.map Prod.fst).Nodup)
    (h3 : (sys.pairings.map Prod.fst).Nodup) :
    import_data sys (some (docOfExport (export_data sys now))) =
      (true, ⟨sys.users, sys.codes, sys.pairings,
        rebuildIndex sys.users sys.pairings⟩) := by
  show import_data sys (some
    ⟨sys.users.map (fun e => (e.1, RawEntity.good e.2)),
     sys.codes.map (fun e => (e.1, RawEntity.good e.2)),
     sys.pairings.map (fun e => (e.1, RawEntity.good e.2))⟩) = _
  simp only [import_data]
  rw [import_users_loop_good sys.users [] []
    (fun k _ => rfl) (fun k _ => rfl) h1]
  rw [import_codes_loop_good sys.codes [] (fun k _ => rfl) h2]
  simp only [List.nil_append]
  rw [import_pairings_loop_good sys.pairings [] _ (fun k _ => rfl) h3]
  simp [rebuildIndex]

/-!
## The compatibility example (claim C9)
-/

theorem compat_example (hashFn : String → Int) (u1 u2 : UserProfile)
    (h1 : u1.interests = ["chess", "hiking"])
    (h2 : u2.interests = ["chess", "cooking"])
    (h3 : u1.last_active = u2.last_active) :
    find_shared_interests u1 u2 = ["chess"] ∧
    (0.15 : ℚ) < calculate_compatibility hashFn u1 u2 ∧
    calculate_compatibility hashFn u1 u2 ≤ 1 := by
  have hshared : find_shared_interests u1 u2 = ["chess"] := by
    unfold find_shared_interests
    rw [h1, h2]
    decide
  have hr0 : (0 : ℚ) ≤ (((hashFn (u1.user_id ++ u2.user_id)).emod 100 : Int) : ℚ) / 1000 := by
    apply div_nonneg
    · exact_mod_cast Int.emod_nonneg _ (by norm_num)
    · norm_num
  have hr1 : (((hashFn (u1.user_id ++ u2.user_id)).emod 100 : Int) : ℚ) / 1000 < 1/10 := by
    rw [div_lt_iff₀ (by norm_num)]
    have hlt : (hashFn (u1.user_id ++ u2.user_id)).emod 100 < 100 :=
      Int.emod_lt_of_pos _ (by norm_num)
    calc (((hashFn (u1.user_id ++ u2.user_id)).emod 100 : Int) : ℚ) < 100 := by
          exact_mod_cast hlt
      _ = 1/10 * 1000 := by norm_num
  have hcommon : (u1.interests.dedup.filter
      (fun i => u2.interests.contains i)) = ["chess"] := by
    rw [h1, h2]
    decide
  have hscore : calculate_compatibility hashFn u1 u2 =
      min ((1 : ℚ)/2 * 0.4 + 0.15 + 1 * 0.2 +
        (((hashFn (u1.user_id ++ u2.user_id)).emod 100 : Int) : ℚ) / 1000) 1 := by
    unfold calculate_compatibility
    rw [hcommon, h3, h1]
    norm_num
  refine ⟨hshared, ?_, ?_⟩
  · rw [hscore]
    have hlt1 : (1 : ℚ)/2 * 0.4 + 0.15 + 1 * 0.2 +
        (((hashFn (u1.user_id ++ u2.user_id)).emod 100 : Int) : ℚ) / 1000 ≤ 1 := by
      nlinarith [hr1]
    rw [min_eq_left hlt1]
    nlinarith [hr0]
  · rw [hscore]
    exact min_le_right _ _

/-!
## The usage-count bound (claim C2, invariant part)
-/

theorem register_codes_eq (sys : PairingSystem) (user_id username : String)
    (extra : RegisterExtra) (now : Int) :
    (register_user sys user_id username extra now).2.codes = sys.codes := by
  unfold register_user
  by_cases hu : (lookupA sys.users user_id).isSome
  · simp [hu]
  · cases hv : validate_user_data user_id username extra <;> simp [hu, hv]

theorem update_user_codes_eq (sys : PairingSystem) (user_id : String)
    (upd : UpdateFields) (now : Int) :
    (update_user sys user_id upd now).2.codes = sys.codes := by
  unfold update_user
  cases lookupA sys.users user_id <;> simp

theorem update_status_codes_eq (sys : PairingSystem) (pairing_id : String)
    (status : PairingStatus) (now : Int) :
    (update_pairing_status sys pairing_id status now).2.codes = sys.codes := by
  unfold update_pairing_status
  cases lookupA sys.pairings pairing_id <;> simp

theorem delete_codes_eq (sys : PairingSystem) (pairing_id : String) :
    (delete_pairing sys pairing_id).2.codes = sys.codes := by
  unfold delete_pairing
  cases lookupA sys.pairings pairing_id <;> simp

/-- The code map after `use_pairing_code`: either untouched, or exactly the
redeemed code's `uses_count` incremented under the validity guard. -/
theorem use_codes_cases (hashFn : String → Int) (sys : PairingSystem)
    (code user_id : String) (now : Int) (pairing_id : String) :
    (use_pairing_code hashFn sys code user_id now pairing_id).2.codes =
        sys.codes ∨
      ∃ pc, lookupA sys.codes code = some pc ∧ pc.is_valid now = true ∧
        (use_pairing_code hashFn sys code user_id now pairing_id).2.codes =
          insertA sys.codes code ({ pc with uses_count := pc.uses_count + 1 }) := by
  cases hcode : lookupA sys.codes code with
  | none => rw [use_code_not_found hashFn sys code user_id now pairing_id hcode]; left; rfl
  | some pc =>
      cases hvalid : pc.is_valid now with
      | false =>
          rw [use_code_invalid hashFn sys code user_id now pairing_id pc hcode hvalid]
          left
          rfl
      | true =>
          by_cases howner : pc.owner_id = user_id
          · rw [use_code_self hashFn sys code user_id now pairing_id pc hcode
              hvalid howner]
            left
            rfl
          · cases hfind : find_existing_pairing sys pc.owner_id user_id with
            | error e =>
                rw [use_code_scan_error hashFn sys code user_id now pairing_id
                  pc e hcode hvalid howner hfind]
                left
                rfl
            | ok found =>
                cases found with
                | some q =>
                    rw [use_code_already_paired hashFn sys code user_id now
                      pairing_id pc q hcode hvalid howner hfind]
                    left
                    rfl
                | none =>
                    right
                    refine ⟨pc, rfl, hvalid, ?_⟩
                    cases hu1 : lookupA sys.users pc.owner_id with
                    | none =>
                        rw [use_code_owner_missing hashFn sys code user_id now
                          pairing_id pc hcode hvalid howner hfind hu1]
                    | some user1 =>
                        cases hu2 : lookupA sys.users user_id with
                        | none =>
                            rw [use_code_redeemer_missing hashFn sys code user_id
                              now pairing_id pc user1 hcode hvalid howner hfind
                              hu1 hu2]
                        | some user2 =>
                            obtain ⟨l1, hl1⟩ : ∃ l, lookupA sys.user_pairings
                                pc.owner_id = some l ∨
                                lookupA sys.user_pairings pc.owner_id = none := by
                              cases lookupA sys.user_pairings pc.owner_id with
                              | none => exact ⟨[], Or.inr rfl⟩
                              | some l => exact ⟨l, Or.inl rfl⟩
                            cases hl1 with
                            | inl hl1 =>
                                cases hl2 : lookupA
                                    (insertA sys.user_pairings pc.owner_id
                                      (l1 ++ [pairing_id])) user_id with
                                | none =>
                                    have huse : pc.use now =
                                        (true, { pc with
                                          uses_count := pc.uses_count + 1 }) := by
                                      simp [PairingCode.use, hvalid]
                                    simp [use_pairing_code, hcode, hvalid, howner,
                                      hfind, huse, hu1, hu2, hl1, hl2]
                                | some l2 =>
                                    have hl2' : lookupA sys.user_pairings user_id =
                                        some l2 := by
                                      rwa [lookupA_insertA_ne _ _ _ _ howner] at hl2
                                    rw [use_code_success hashFn sys code user_id
                                      now pairing_id pc user1 user2 l1 l2 hcode
                                      hvalid howner hfind hu1 hu2 hl1 hl2']
                            | inr hl1 =>
                                have huse : pc.use now =
                                    (true, { pc with
                                      uses_count := pc.uses_count + 1 }) := by
                                  simp [PairingCode.use, hvalid]
                                simp [use_pairing_code, hcode, hvalid, howner,
                                  hfind, huse, hu1, hu2, hl1]

theorem generate_codes_cases (sys : PairingSystem) (owner_id : String)
    (max_uses expires_hours : Int) (theme : CodeTheme) (is_animated : Bool)
    (metadata : String) (now : Int) (code : String) :
    (generate_pairing_code sys owner_id max_uses expires_hours theme
        is_animated metadata now code).2.codes = sys.codes ∨
      (generate_pairing_code sys owner_id max_uses expires_hours theme
        is_animated metadata now code).2.codes =
        insertA sys.codes code
          ({ code := code, owner_id := owner_id, created_at := now,
             expires_at := now + expires_hours * 3600, max_uses := max_uses,
             uses_count := 0, theme := theme, is_animated := is_animated,
             is_active := true, metadata := metadata }) := by
  unfold generate_pairing_code
  by_cases hu : (lookupA sys.users owner_id).isSome
  · right
    simp [hu]
  · left
    simp [hu]

/-- The C2 invariant on codes: `uses_count` never exceeds the usage limit
(`max` guards codes created with a non-positive `max_uses`, which start at 0
and are never usable). -/
def uses_bounded (sys : PairingSystem) : Prop :=
  ∀ c pc, lookupA sys.codes c = some pc →
    pc.uses_count ≤ max pc.max_uses 0 ∧ 0 ≤ pc.uses_count

theorem uses_bounded_of_codes_eq (s s' : PairingSystem)
    (heq : s'.codes = s.codes) (h : uses_bounded s) : uses_bounded s' := by
  intro c pc hc
  rw [heq] at hc
  exact h c pc hc

theorem uses_bounded_step (hashFn : String → Int) (b : Bool)
    (s s' : PairingSystem) (hstep : Step hashFn b s s') (h : uses_bounded s) :
    uses_bounded s' := by
  cases hstep with
  | register user_id username extra now =>
      exact uses_bounded_of_codes_eq _ _ (register_codes_eq _ _ _ _ _) h
  | update_user_op user_id upd now =>
      exact uses_bounded_of_codes_eq _ _ (update_user_codes_eq _ _ _ _) h
  | update_status pairing_id status now hallow =>
      exact uses_bounded_of_codes_eq _ _ (update_status_codes_eq _ _ _ _) h
  | delete pairing_id =>
      exact uses_bounded_of_codes_eq _ _ (delete_codes_eq _ _) h
  | generate owner_id max_uses expires_hours theme is_animated metadata now code hfresh =>
      rcases generate_codes_cases s owner_id max_uses expires_hours theme
        is_animated metadata now code with heq | heq
      · exact uses_bounded_of_codes_eq _ _ heq h
      · intro c pc hc
        rw [heq] at hc
        by_cases he : code = c
        · subst he
          rw [lookupA_insertA_self] at hc
          injection hc with hc
          subst hc
          constructor
          · exact le_max_right _ _
          · exact le_refl 0
        · rw [lookupA_insertA_ne _ _ _ _ he] at hc
          exact h c pc hc
  | use code user_id now pairing_id hfresh =>
      rcases use_codes_cases hashFn s code user_id now pairing_id with heq |
        ⟨pc, hcode, hvalid, heq⟩
      · exact uses_bounded_of_codes_eq _ _ heq h
      · intro c pc' hc
        rw [heq] at hc
        by_cases he : code = c
        · subst he
          rw [lookupA_insertA_self] at hc
          injection hc with hc
          subst hc
          have hlt : pc.uses_count < pc.max_uses := by
            have := hvalid
            simp only [PairingCode.is_valid, Bool.and_eq_true,
              decide_eq_true_eq] at this
            exact this.1.2
          have hold := h code pc hcode
          constructor
          · show pc.uses_count + 1 ≤ max pc.max_uses 0
            have : pc.max_uses ≤ max pc.max_uses 0 := le_max_left _ _
            omega
          · show 0 ≤ pc.uses_count + 1
            omega
        · rw [lookupA_insertA_ne _ _ _ _ he] at hc
          exact h c pc' hc
  | cleanup now =>
      intro c pc hc
      rw [cleanup_codes_lookup] at hc
      cases hc₀ : lookupA s.codes c with
      | none => rw [hc₀] at hc; cases hc
      | some pc₀ =>
          rw [hc₀, Option.map_some'] at hc
          injection hc with hc
          have hu : pc.uses_count = pc₀.uses_count ∧
              pc.max_uses = pc₀.max_uses := by
            rw [← hc]
            split <;> exact ⟨rfl, rfl⟩
          rw [hu.1, hu.2]
          exact h c pc₀ hc₀

theorem uses_bounded_reachable (hashFn : String → Int) (b : Bool)
    (sys : PairingSystem) (h : Reachable hashFn b sys) : uses_bounded sys := by
  induction h with
  | init => intro c pc hc; simp [emptySystem, lookupA] at hc
  | step hr hs ih => exact uses_bounded_step _ _ _ _ hs ih

deriving instance DecidableEq for Except

/-!
## Concrete stores used by the claim witnesses and counterexamples
-/

/-- A fixed stand-in for the (salted, process-stable) `hash` builtin. -/
def hashFn0 : String → Int := fun _ => 0

def aliceProfile : UserProfile :=
  { user_id := "alice", username := "Alice", email := none, avatar_url := none,
    preferences := [], interests := [], created_at := 0, last_active := 0,
    is_verified := false }

/-- A store with one registered user. -/
def preAlice : PairingSystem :=
  { users := [("alice", aliceProfile)], codes := [], pairings := [],
    user_pairings := [("alice", [])] }

/-- The reachable store: register `alice` and `bobby`, then `alice` issues the
single-use code `22222222` (24h expiry) at time 0. -/
def regGen0 : PairingSystem := emptySystem
def regGen1 : PairingSystem := (register_user regGen0 "alice" "Alice" noExtra 0).2
def regGen2 : PairingSystem := (register_user regGen1 "bobby" "Bobby" noExtra 0).2
def regGenSys : PairingSystem :=
  (generate_pairing_code regGen2 "alice" 1 24 CodeTheme.default true "" 0
    "22222222").2

/-- The stored value of code `22222222` in `regGenSys`. -/
def codeW : PairingCode :=
  { code := "22222222", owner_id := "alice", created_at := 0,
    expires_at := 86400, max_uses := 1, uses_count := 0,
    theme := CodeTheme.default, is_animated := true, is_active := true,
    metadata := "" }

theorem regGenSys_reachable (b : Bool) : Reachable hashFn0 b regGenSys :=
  Reachable.step
    (Reachable.step
      (Reachable.step Reachable.init
        (Step.register regGen0 "alice" "Alice" noExtra 0))
      (Step.register regGen1 "bobby" "Bobby" noExtra 0))
    (Step.generate regGen2 "alice" 1 24 CodeTheme.default true "" 0 "22222222"
      (by decide))

/-- The C1 counterexample trace: after a redemption, revoking the pairing,
redeeming again, and re-activating the first pairing via
`update_pairing_status`, two `active` pairings exist between `alice` and
`bobby`. -/
def c1b0 : PairingSystem := emptySystem
def c1b1 : PairingSystem := (register_user c1b0 "alice" "Alice" noExtra 0).2
def c1b2 : PairingSystem := (register_user c1b1 "bobby" "Bobby" noExtra 0).2
def c1b3 : PairingSystem :=
  (generate_pairing_code c1b2 "alice" 2 24 CodeTheme.default true "" 0
    "11111111").2
def c1b4 : PairingSystem :=
  (use_pairing_code hashFn0 c1b3 "11111111" "bobby" 0 "p1").2
def c1b5 : PairingSystem :=
  (update_pairing_status c1b4 "p1" PairingStatus.revoked 0).2
def c1b6 : PairingSystem :=
  (use_pairing_code hashFn0 c1b5 "11111111" "bobby" 0 "p2").2
def c1b7 : PairingSystem :=
  (update_pairing_status c1b6 "p1" PairingStatus.active 0).2

theorem c1b7_reachable : Reachable hashFn0 true c1b7 :=
  Reachable.step
    (Reachable.step
      (Reachable.step
        (Reachable.step
          (Reachable.step
            (Reachable.step
              (Reachable.step Reachable.init
                (Step.register c1b0 "alice" "Alice" noExtra 0))
              (Step.register c1b1 "bobby" "Bobby" noExtra 0))
            (Step.generate c1b2 "alice" 2 24 CodeTheme.default true "" 0
              "11111111" (by decide)))
          (Step.use c1b3 "11111111" "bobby" 0 "p1" (by decide)))
        (Step.update_status c1b4 "p1" PairingStatus.revoked 0 (fun _ => rfl)))
      (Step.use c1b5 "11111111" "bobby" 0 "p2" (by decide)))
    (Step.update_status c1b6 "p1" PairingStatus.active 0 (fun _ => rfl))

/-- A decidable check that two distinct stored pairings are both active
between the same two distinct users. -/
def violates_amoa (sys : PairingSystem) (a b pid₁ pid₂ : String) : Bool :=
  decide (a ≠ b) && decide (pid₁ ≠ pid₂) &&
  (match lookupA sys.pairings pid₁, lookupA sys.pairings pid₂ with
   | some p₁, some p₂ =>
       decide (members_match p₁ a b) && decide (members_match p₂ a b) &&
       decide (p₁.status = PairingStatus.active) &&
       decide (p₂.status = PairingStatus.active)
   | _, _ => false)

theorem violates_amoa_spec (sys : PairingSystem) (a b pid₁ pid₂ : String)
    (h : violates_amoa sys a b pid₁ pid₂ = true) : ¬ at_most_one_active sys := by
  unfold violates_amoa at h
  cases hp₁ : lookupA sys.pairings pid₁ with
  | none => rw [hp₁] at h; simp at h
  | some p₁ =>
      cases hp₂ : lookupA sys.pairings pid₂ with
      | none => rw [hp₁, hp₂] at h; simp at h
      | some p₂ =>
          rw [hp₁, hp₂] at h
          simp only [Bool.and_eq_true, decide_eq_true_eq] at h
          obtain ⟨⟨hab, hpid⟩, ⟨⟨hm₁, hm₂⟩, hs₁⟩, hs₂⟩ := h
          intro hJ
          exact hpid (hJ a b pid₁ pid₂ p₁ p₂ hab hp₁ hp₂ hm₁ hm₂ hs₁ hs₂)

/-- Code `33333333` is stored but inactive, owned by `alice`. -/
def c3code : PairingCode :=
  { code := "33333333", owner_id := "alice", created_at := 0, expires_at := 100,
    max_uses := 1, uses_count := 0, theme := CodeTheme.default,
    is_animated := true, is_active := false, metadata := "" }

def c3sys : PairingSystem :=
  { users := [("alice", aliceProfile)], codes := [("33333333", c3code)],
    pairings := [], user_pairings := [("alice", [])] }

/-- A store with one code already past its expiry at time 10. -/
def c4code : PairingCode :=
  { code := "44444444", owner_id := "alice", created_at := 0, expires_at := 5,
    max_uses := 1, uses_count := 0, theme := CodeTheme.default,
    is_animated := true, is_active := true, metadata := "" }

def c4sys : PairingSystem :=
  { users := [], codes := [("44444444", c4code)], pairings := [],
    user_pairings := [] }

/-- An import document whose JSON parsed but whose single user record fails
`UserProfile.from_dict`. -/
def c5badDoc : ImportDoc :=
  { users := [("u1", RawEntity.bad)], codes := [], pairings := [] }

/-- A pairing stored between a registered user and an unregistered "ghost"
id, with the matching index; used for C8/C10 witnesses. -/
def ghostPairing : Pairing :=
  { pairing_id := "p1", user1_id := "ghost", user2_id := "alice",
    created_at := 0, status := PairingStatus.active, compatibility_score := 0,
    shared_interests := [], last_interaction := 0, metadata := "" }

def ghostSys : PairingSystem :=
  { users := [("alice", aliceProfile)], codes := [],
    pairings := [("p1", ghostPairing)],
    user_pairings := [("alice", ["p1"]), ("ghost", ["p1"])] }

def c9u1 : UserProfile :=
  { user_id := "u1", username := "UserOne", email := none, avatar_url := none,
    preferences := [], interests := ["chess", "hiking"], created_at := 0,
    last_active := 0, is_verified := false }

def c9u2 : UserProfile :=
  { user_id := "u2", username := "UserTwo", email := none, avatar_url := none,
    preferences := [], interests := ["chess", "cooking"], created_at := 0,
    last_active := 0, is_verified := false }

def bobbyProfile : UserProfile :=
  { user_id := "bobby", username := "Bobby", email := none, avatar_url := none,
    preferences := [], interests := [], created_at := 0, last_active := 0,
    is_verified := false }

/-!
## The claims
-/

/-- Claim C1 (amended).  In every state reachable without re-activating a
stored pairing through `update_pairing_status`, at most one pairing with
status `active` exists between any two distinct users.  In every reachable
state, a redemption that has passed the lookup, validity and self-pair checks
fails with the already-paired message exactly when a stored `active` pairing
links the code owner and the redeemer in either slot order — hence once no
such pairing is active any more, a new redemption between the same pair
passes this check.  (The unrestricted claim is refuted by
`c1_counterexample`: re-activating a revoked pairing after a second
redemption yields two active pairings between the same pair.) -/
theorem c1_active_pairing_uniqueness :
    (∀ (hashFn : String → Int) (sys : PairingSystem),
      Reachable hashFn false sys → at_most_one_active sys) ∧
    (∀ (hashFn : String → Int) (b : Bool) (sys : PairingSystem)
      (code user_id : String) (now : Int) (pairing_id : String)
      (pc : PairingCode), Reachable hashFn b sys →
      lookupA sys.codes code = some pc → pc.is_valid now = true →
      pc.owner_id ≠ user_id →
      ((use_pairing_code hashFn sys code user_id now pairing_id).1 =
          .ok (false, "Users are already paired") ↔
        ∃ pid p, lookupA sys.pairings pid = some p ∧
          p.status = PairingStatus.active ∧
          members_match p pc.owner_id user_id)) :=
  ⟨fun hashFn sys h => amoa_reachable hashFn sys h,
   fun hashFn b sys code user_id now pairing_id pc hr hcode hvalid howner =>
     already_paired_iff hashFn sys (wf_reachable hashFn b sys hr) code user_id
       now pairing_id pc hcode hvalid howner⟩

/-- Claim C1, counterexample to the claim as stated: the state `c1b7` is
reachable through the public operations (redeem, revoke, redeem again,
re-activate the first pairing), yet holds two distinct active pairings
between `alice` and `bobby`. -/
theorem c1_counterexample :
    Reachable hashFn0 true c1b7 ∧ ¬ at_most_one_active c1b7 :=
  ⟨c1b7_reachable,
   violates_amoa_spec c1b7 "alice" "bobby" "p1" "p2" (by decide)⟩

/-- Claim C1, witness: the amended theorem applied to a concrete reachable
store. -/
theorem c1_active_pairing_uniqueness_witness :
    at_most_one_active regGenSys ∧
    ((use_pairing_code hashFn0 regGenSys "22222222" "bobby" 0 "p9").1 =
        .ok (false, "Users are already paired") ↔
      ∃ pid p, lookupA regGenSys.pairings pid = some p ∧
        p.status = PairingStatus.active ∧
        members_match p codeW.owner_id "bobby") :=
  ⟨c1_active_pairing_uniqueness.1 hashFn0 regGenSys (regGenSys_reachable false),
   c1_active_pairing_uniqueness.2 hashFn0 false regGenSys "22222222" "bobby" 0
     "p9" codeW (regGenSys_reachable false) (by decide) (by decide)
     (by decide)⟩

/-- Claim C2.  A code created with `max_uses = N`: a list of `N` distinct
fresh redeemers all succeed (each minting a stored pairing), the code then
carries `uses_count = N`, and any further redemption attempt fails with the
expired/usage-limit message; moreover in every reachable state `uses_count`
never exceeds `max_uses` (for any code with a positive limit). -/
theorem c2_usage_limit :
    (∀ (hashFn : String → Int) (sys : PairingSystem) (code : String)
      (pc : PairingCode) (now : Int) (N : Nat)
      (ups : List (String × String)) (u' pid' : String),
      lookupA sys.codes code = some pc →
      pc.is_active = true → now < pc.expires_at →
      pc.max_uses = (N : Int) → pc.uses_count = 0 →
      ups.length = N →
      (∃ u, lookupA sys.users pc.owner_id = some u) →
      (∃ l, lookupA sys.user_pairings pc.owner_id = some l) →
      (ups.map Prod.fst).Nodup → (ups.map Prod.snd).Nodup →
      (∀ up ∈ ups, up.1 ≠ pc.owner_id ∧
        (∃ u, lookupA sys.users up.1 = some u) ∧
        (∃ l, lookupA sys.user_pairings up.1 = some l) ∧
        find_existing_pairing sys pc.owner_id up.1 = .ok none) →
      (∀ up ∈ ups, lookupA sys.pairings up.2 = none) →
      (redeem_all hashFn code now sys ups).1 =
          ups.map (fun up => .ok (true, up.2)) ∧
      (∀ up ∈ ups,
        (lookupA (redeem_all hashFn code now sys ups).2.pairings
          up.2).isSome) ∧
      lookupA (redeem_all hashFn code now sys ups).2.codes code =
          some { pc with uses_count := (N : Int) } ∧
      use_pairing_code hashFn (redeem_all hashFn code now sys ups).2 code u'
          now pid' =
        (.ok (false, "Pairing code has expired or been used"),
          (redeem_all hashFn code now sys ups).2)) ∧
    (∀ (hashFn : String → Int) (b : Bool) (sys : PairingSystem),
      Reachable hashFn b sys → ∀ c pc, lookupA sys.codes c = some pc →
      1 ≤ pc.max_uses → pc.uses_count ≤ pc.max_uses) := by
  constructor
  · intro hashFn sys code pc now N ups u' pid' hcode hact hexp hmax huses hlen
      hu ho hnd1 hnd2 hall hfresh
    obtain ⟨r1, r2, r3, r4, r5, r6, r7⟩ :=
      redeem_all_spec hashFn code pc.owner_id now (N : Int) ups sys pc hcode
        rfl hact hexp hmax (by rw [hlen, huses]; simp) hu ho hnd1 hnd2 hall
        hfresh
    rw [huses, hlen, zero_add] at r2
    refine ⟨r1, r6, r2, ?_⟩
    have hvalidF : ({ pc with uses_count := (N : Int) } :
        PairingCode).is_valid now = false := by
      simp [PairingCode.is_valid, hmax]
    exact use_code_invalid hashFn _ code u' now pid' _ r2 hvalidF
  · intro hashFn b sys hr c pc hc hmax1
    obtain ⟨h1, h2⟩ := uses_bounded_reachable hashFn b sys hr c pc hc
    rw [max_eq_left (by omega : (0 : Int) ≤ pc.max_uses)] at h1
    exact h1

/-- Claim C2, witness: `alice`'s single-use code `22222222` is redeemed once
by `bobby` (successfully, minting a pairing and bringing `uses_count` to 1);
a further attempt by `carol` fails with the expired/usage-limit message. -/
theorem c2_usage_limit_witness :
    ((redeem_all hashFn0 "22222222" 0 regGenSys [("bobby", "p1")]).1 =
        [("bobby", "p1")].map (fun up => .ok (true, up.2)) ∧
      (∀ up ∈ [("bobby", "p1")],
        (lookupA (redeem_all hashFn0 "22222222" 0 regGenSys
          [("bobby", "p1")]).2.pairings up.2).isSome) ∧
      lookupA (redeem_all hashFn0 "22222222" 0 regGenSys
          [("bobby", "p1")]).2.codes "22222222" =
        some { codeW with uses_count := ((1 : Nat) : Int) } ∧
      use_pairing_code hashFn0 (redeem_all hashFn0 "22222222" 0 regGenSys
          [("bobby", "p1")]).2 "22222222" "carol" 0 "p8" =
        (.ok (false, "Pairing code has expired or been used"),
          (redeem_all hashFn0 "22222222" 0 regGenSys [("bobby", "p1")]).2)) ∧
    codeW.uses_count ≤ codeW.max_uses :=
  ⟨c2_usage_limit.1 hashFn0 regGenSys "22222222" codeW 0 1 [("bobby", "p1")]
     "carol" "p8" (by decide) (by decide) (by decide) (by decide) (by decide)
     (by decide) ⟨aliceProfile, by decide⟩ ⟨[], by decide⟩ (by decide)
     (by decide)
     (by
       intro up hup
       simp only [List.mem_singleton] at hup
       subst hup
       exact ⟨by decide, ⟨bobbyProfile, by decide⟩, ⟨[], by decide⟩,
         by decide⟩)
     (by
       intro up hup
       simp only [List.mem_singleton] at hup
       subst hup
       decide),
   c2_usage_limit.2 hashFn0 false regGenSys (regGenSys_reachable false)
     "22222222" codeW (by decide) (by decide)⟩

/-- Claim C3 (amended).  Redeeming a stored code as its own owner always
fails, but the reason depends on validity: the self-pair message for a valid
code, the expired/usage message otherwise — the validity check runs first in
`use_pairing_code`, so an owner redeeming an expired, inactive or used-up
code sees the expired reason, not the self-pair reason.  Either way the state
is unchanged.  (The claim as stated is refuted by `c3_counterexample`.) -/
theorem c3_self_pair_check_amended :
    ∀ (hashFn : String → Int) (sys : PairingSystem) (code user_id : String)
      (now : Int) (pairing_id : String) (pc : PairingCode),
      lookupA sys.codes code = some pc → pc.owner_id = user_id →
      use_pairing_code hashFn sys code user_id now pairing_id =
        (.ok (false, if pc.is_valid now then "Cannot pair with yourself"
          else "Pairing code has expired or been used"), sys) := by
  intro hashFn sys code user_id now pairing_id pc hcode howner
  cases hvalid : pc.is_valid now with
  | true =>
      rw [use_code_self hashFn sys code user_id now pairing_id pc hcode hvalid
        howner]
      simp [hvalid]
  | false =>
      rw [use_code_invalid hashFn sys code user_id now pairing_id pc hcode
        hvalid]
      simp [hvalid]

/-- Claim C3, counterexample to the claim as stated: `alice` redeems her own
stored but inactive code `33333333` and receives the expired/usage message,
not the self-pair message. -/
theorem c3_counterexample :
    lookupA c3sys.codes "33333333" = some c3code ∧
    c3code.owner_id = "alice" ∧
    (use_pairing_code hashFn0 c3sys "33333333" "alice" 0 "p1").1 =
      .ok (false, "Pairing code has expired or been used") ∧
    ("Pairing code has expired or been used" : String) ≠
      "Cannot pair with yourself" := by
  decide

/-- Claim C3, witness: the amended theorem applied to the inactive code
`33333333` redeemed by its owner. -/
theorem c3_self_pair_check_amended_witness :
    use_pairing_code hashFn0 c3sys "33333333" "alice" 0 "p1" =
      (.ok (false, if c3code.is_valid 0 then "Cannot pair with yourself"
        else "Pairing code has expired or been used"), c3sys) :=
  c3_self_pair_check_amended hashFn0 c3sys "33333333" "alice" 0 "p1" c3code
    (by decide) (by decide)

/-- Claim C4 (amended).  Running `cleanup_expired` twice consecutively leaves
the state unchanged after the second run, and the second call returns the
same counts as the first (it re-counts every code already past expiry and
every stale non-active pairing) rather than zero counts.  (The zero-counts
claim is refuted by `c4_counterexample`.) -/
theorem c4_cleanup_idempotent_amended :
    ∀ (sys : PairingSystem) (now : Int),
      (cleanup_expired (cleanup_expired sys now).2 now).2 =
          (cleanup_expired sys now).2 ∧
        (cleanup_expired (cleanup_expired sys now).2 now).1 =
          (cleanup_expired sys now).1 :=
  fun sys now => cleanup_expired_twice sys now

/-- Claim C4, counterexample to the claim as stated: with one expired code in
the store, the second consecutive `cleanup_expired` still reports one expired
code, not zero. -/
theorem c4_counterexample :
    (cleanup_expired (cleanup_expired c4sys 10).2 10).1 = (1, 0) ∧
    ((1, 0) : Nat × Nat) ≠ (0, 0) := by
  decide

/-- Claim C5 (code bug).  `import_data` clears all four maps before parsing
any entity, so a document whose top level parsed but whose first entity is
malformed leaves a cleared-out store behind a `False` return — the pre-import
state (here one registered user) is not retained and the error is surfaced
only after the destructive replacement began.  Only a top-level JSON failure
(`none`) leaves the pre-import state intact. -/
theorem c5_import_clears_state_on_entity_error :
    preAlice.users ≠ [] ∧
    import_data preAlice (some c5badDoc) =
      (false, ⟨[], [], [], []⟩) ∧
    import_data preAlice none = (false, preAlice) := by
  refine ⟨by decide, by decide, rfl⟩

/-- Claim C6 (amended).  The validators implement exactly the stated bounds —
duration 1–720 hours, max-uses 1–1000, serialized metadata at most 10000
bytes — but `generate_pairing_code` never invokes them: for any registered
owner it accepts every `expires_hours`, `max_uses` and `metadata` value and
stores the code.  (The claim that out-of-range calls are rejected is refuted
by `c6_counterexample`.) -/
theorem c6_issuance_validators_amended :
    (∀ h : Int, validate_duration h = true ↔ 1 ≤ h ∧ h ≤ 720) ∧
    (∀ m : Int, validate_max_uses m = true ↔ 1 ≤ m ∧ m ≤ 1000) ∧
    (∀ md : String, validate_metadata md = true ↔ md.toList.length ≤ 10000) ∧
    (∀ (sys : PairingSystem) (owner_id : String) (max_uses expires_hours : Int)
      (theme : CodeTheme) (is_animated : Bool) (metadata : String) (now : Int)
      (code : String) (u : UserProfile),
      lookupA sys.users owner_id = some u →
      (generate_pairing_code sys owner_id max_uses expires_hours theme
          is_animated metadata now code).1 =
        .ok ({ code := code, owner_id := owner_id, created_at := now,
               expires_at := now + expires_hours * 3600, max_uses := max_uses,
               uses_count := 0, theme := theme, is_animated := is_animated,
               is_active := true, metadata := metadata }) ∧
      lookupA (generate_pairing_code sys owner_id max_uses expires_hours theme
          is_animated metadata now code).2.codes code =
        some ({ code := code, owner_id := owner_id, created_at := now,
                expires_at := now + expires_hours * 3600,
                max_uses := max_uses, uses_count := 0, theme := theme,
                is_animated := is_animated, is_active := true,
                metadata := metadata })) := by
  refine ⟨?_, ?_, ?_, ?_⟩
  · intro h
    simp [validate_duration]
  · intro m
    simp [validate_max_uses]
  · intro md
    simp [validate_metadata]
  · intro sys owner_id max_uses expires_hours theme is_animated metadata now
      code u hu
    have hu' : (lookupA sys.users owner_id).isSome = true := by simp [hu]
    unfold generate_pairing_code
    rw [if_pos hu']
    exact ⟨rfl, lookupA_insertA_self _ _ _⟩

/-- Claim C6, counterexample to the claim as stated: `expires_hours = 0` and
`max_uses = 1001` are both outside the validators' bounds, yet
`generate_pairing_code` accepts them and stores the code. -/
theorem c6_counterexample :
    validate_duration 0 = false ∧ validate_max_uses 1001 = false ∧
    (generate_pairing_code preAlice "alice" 1001 0 CodeTheme.default true ""
        0 "55555555").1 =
      .ok ({ code := "55555555", owner_id := "alice", created_at := 0,
             expires_at := 0, max_uses := 1001, uses_count := 0,
             theme := CodeTheme.default, is_animated := true,
             is_active := true, metadata := "" }) ∧
    (lookupA (generate_pairing_code preAlice "alice" 1001 0 CodeTheme.default
        true "" 0 "55555555").2.codes "55555555").isSome = true := by
  decide

/-- Claim C6, witness: the amended theorem applied at concrete inputs. -/
theorem c6_issuance_validators_amended_witness :
    (validate_duration 24 = true ↔ 1 ≤ (24 : Int) ∧ (24 : Int) ≤ 720) ∧
    (validate_max_uses 5 = true ↔ 1 ≤ (5 : Int) ∧ (5 : Int) ≤ 1000) ∧
    (validate_metadata "" = true ↔ ("" : String).toList.length ≤ 10000) ∧
    ((generate_pairing_code preAlice "alice" 1001 0 CodeTheme.default true ""
        0 "77777777").1 =
      .ok ({ code := "77777777", owner_id := "alice", created_at := 0,
             expires_at := 0, max_uses := 1001, uses_count := 0,
             theme := CodeTheme.default, is_animated := true,
             is_active := true, metadata := "" }) ∧
      lookupA (generate_pairing_code preAlice "alice" 1001 0 CodeTheme.default
          true "" 0 "77777777").2.codes "77777777" =
        some ({ code := "77777777", owner_id := "alice", created_at := 0,
                expires_at := 0, max_uses := 1001, uses_count := 0,
                theme := CodeTheme.default, is_animated := true,
                is_active := true, metadata := "" })) :=
  ⟨c6_issuance_validators_amended.1 24,
   c6_issuance_validators_amended.2.1 5,
   c6_issuance_validators_amended.2.2.1 "",
   c6_issuance_validators_amended.2.2.2 preAlice "alice" 1001 0
     CodeTheme.default true "" 0 "77777777" aliceProfile (by decide)⟩

/-- Claim C7.  Registering an already-registered `user_id` fails with the
already-exists `ValueError` before validation or any mutation: the returned
state is exactly the input state, so the stored profile and its index entry
are unchanged. -/
theorem c7_duplicate_registration :
    ∀ (sys : PairingSystem) (user_id username : String)
      (extra : RegisterExtra) (now : Int) (u : UserProfile),
      lookupA sys.users user_id = some u →
      register_user sys user_id username extra now =
        (.error "User already exists", sys) := by
  intro sys user_id username extra now u hu
  have hu' : (lookupA sys.users user_id).isSome = true := by simp [hu]
  unfold register_user
  rw [if_pos hu']

/-- Claim C7, witness: re-registering `alice` fails and leaves the store
untouched. -/
theorem c7_duplicate_registration_witness :
    register_user preAlice "alice" "Alicia" noExtra 5 =
      (.error "User already exists", preAlice) :=
  c7_duplicate_registration preAlice "alice" "Alicia" noExtra 5 aliceProfile
    (by decide)

/-- Claim C8.  For a well-formed store (no duplicate keys, index agreeing
with a rebuild from the users and pairings maps — which holds in every
reachable state), `export_data` followed by `import_data` of the exported
document succeeds and reproduces the same users, codes and pairings maps,
and the rebuilt user-pairing index holds the same pairing ids under the same
user ids as before. -/
theorem c8_export_import_roundtrip :
    ∀ (sys : PairingSystem) (now : Int),
      (sys.users.map Prod.fst).Nodup →
      (sys.codes.map Prod.fst).Nodup →
      (sys.pairings.map Prod.fst).Nodup →
      (∀ uid, lookupA sys.user_pairings uid =
        lookupA (rebuildIndex sys.users sys.pairings) uid) →
      (import_data sys (some (docOfExport (export_data sys now)))).1 = true ∧
      (import_data sys (some (docOfExport (export_data sys now)))).2.users =
        sys.users ∧
      (import_data sys (some (docOfExport (export_data sys now)))).2.codes =
        sys.codes ∧
      (import_data sys (some (docOfExport (export_data sys now)))).2.pairings =
        sys.pairings ∧
      (∀ uid, lookupA (import_data sys (some (docOfExport
          (export_data sys now)))).2.user_pairings uid =
        lookupA sys.user_pairings uid) := by
  intro sys now h1 h2 h3 hidx
  rw [import_export_state sys now h1 h2 h3]
  exact ⟨rfl, rfl, rfl, rfl, fun uid => (hidx uid).symm⟩

/-- Claim C8, witness: round trip on a concrete store holding a user, a
pairing and its index. -/
theorem c8_export_import_roundtrip_witness :
    (import_data ghostSys (some (docOfExport (export_data ghostSys 0)))).1 =
        true ∧
    (import_data ghostSys (some (docOfExport
      (export_data ghostSys 0)))).2.users = ghostSys.users ∧
    (import_data ghostSys (some (docOfExport
      (export_data ghostSys 0)))).2.codes = ghostSys.codes ∧
    (import_data ghostSys (some (docOfExport
      (export_data ghostSys 0)))).2.pairings = ghostSys.pairings ∧
    (∀ uid, lookupA (import_data ghostSys (some (docOfExport
        (export_data ghostSys 0)))).2.user_pairings uid =
      lookupA ghostSys.user_pairings uid) :=
  c8_export_import_roundtrip ghostSys 0 (by decide) (by decide) (by decide)
    (fun uid => rfl)

/-- Claim C9.  For two users whose interest lists are `["chess", "hiking"]`
and `["chess", "cooking"]` and equal `last_active` (no other distinguishing
preferences), the shared-interest computation returns exactly `["chess"]`
(the literal intersection) and the compatibility score strictly exceeds the
fixed preference-baseline contribution 0.15 while never exceeding 1.0 — for
every possible hash function. -/
theorem c9_compatibility_example :
    ∀ (hashFn : String → Int) (u1 u2 : UserProfile),
      u1.interests = ["chess", "hiking"] →
      u2.interests = ["chess", "cooking"] →
      u1.last_active = u2.last_active →
      find_shared_interests u1 u2 = ["chess"] ∧
      (0.15 : ℚ) < calculate_compatibility hashFn u1 u2 ∧
      calculate_compatibility hashFn u1 u2 ≤ 1 :=
  fun hashFn u1 u2 h1 h2 h3 => compat_example hashFn u1 u2 h1 h2 h3

/-- Claim C9, witness: the theorem applied at two concrete profiles. -/
theorem c9_compatibility_example_witness :
    find_shared_interests c9u1 c9u2 = ["chess"] ∧
    (0.15 : ℚ) < calculate_compatibility hashFn0 c9u1 c9u2 ∧
    calculate_compatibility hashFn0 c9u1 c9u2 ≤ 1 :=
  c9_compatibility_example hashFn0 c9u1 c9u2 rfl rfl rfl

/-- Claim C10.  For any `user_id` not present in the users map,
`get_user_stats` returns the empty result (`None`, the empty dict) — no
error and no partial statistics — even when that id still occurs in stored
pairings or in the user-pairing index. -/
theorem c10_stats_unknown_user :
    ∀ (sys : PairingSystem) (user_id : String) (now : Int),
      lookupA sys.users user_id = none →
      get_user_stats sys user_id now = none := by
  intro sys user_id now h
  simp [get_user_stats, h]

/-- Claim C10, witness: `ghost` appears in a stored pairing and in the index
but is not a registered user; its stats are the empty result. -/
theorem c10_stats_unknown_user_witness :
    lookupA ghostSys.users "ghost" = none ∧
    (lookupA ghostSys.pairings "p1").isSome = true ∧
    (lookupA ghostSys.user_pairings "ghost").isSome = true ∧
    get_user_stats ghostSys "ghost" 0 = none :=
  ⟨by decide, by decide, by decide,
   c10_stats_unknown_user ghostSys "ghost" 0 (by decide)⟩
